import Mathlib

set_option maxRecDepth 40000

/-!
Verification of the `tinypid` PID controller library.

The library computes in IEEE-754 binary32 (`float32`) arithmetic with
round-to-nearest, ties-to-even.  We model a `float32` value by the inductive
type `F32` below (a single NaN, signed infinities, signed zeros, and nonzero
finite values `± m * 2^e`), and implement the arithmetic operations used by
the source (`+`, `-`, `*`, `/`, the Go builtins `min`/`max`, and the
`int64 → float32` conversion) executably over `Nat`/`Int`, rounding exact
rational results to nearest-even.  The four controllers of the library are
then transcribed statement by statement.
-/

/-- A binary32 value: NaN, signed infinity, signed zero, or a nonzero finite
value `(-1)^sign * m * 2^e`.  The canonical (bit-level) representation keeps
`-149 ≤ e ≤ 104` with `2^23 ≤ m < 2^24` for normal values and `e = -149`,
`0 < m < 2^23` for subnormals; see `F32.WF`. -/
inductive F32 where
  | nan : F32
  | inf : Bool → F32
  | zero : Bool → F32
  | num : Bool → Int → Nat → F32
  deriving DecidableEq

/-- Well-formedness: the value is in the canonical binary32 representation. -/
def F32.WF : F32 → Bool
  | .num _ e m =>
      decide (-149 ≤ e) && decide (e ≤ 104) && decide (m < 2 ^ 24) &&
        (decide (2 ^ 23 ≤ m) || decide (e = -149 ∧ 0 < m))
  | _ => true

def F32.isNan : F32 → Bool
  | .nan => true
  | _ => false

def F32.isInf : F32 → Bool
  | .inf _ => true
  | _ => false

/-- The exact rational value of a finite `F32` (0 for NaN and infinities,
which are guarded separately everywhere this is used). -/
def F32.val : F32 → ℚ
  | .num s e m => (if s then -1 else 1) * (m : ℚ) * (2 : ℚ) ^ e
  | _ => 0

/-- Fuel-driven binary logarithm (structural recursion, so that it reduces
definitionally; the fuel is the number itself). -/
def natLog2F : Nat → Nat → Nat
  | 0, _ => 0
  | f + 1, n => if n ≤ 1 then 0 else natLog2F f (n / 2) + 1

/-- The term `⌊log₂ n⌋` for `n > 0` (and `0` at `0`). -/
def natLog2 (n : Nat) : Nat := natLog2F n n

/-- The term `findL a b` is `⌊log₂ (a / b)⌋` for positive naturals `a`, `b`. -/
def findL (a b : Nat) : Int :=
  let d : Int := (natLog2 a : Int) - (natLog2 b : Int)
  if b * 2 ^ d.toNat ≤ a * 2 ^ (-d).toNat then d else d - 1

/-- Round `A / B` to the nearest integer, ties to even. -/
def roundQ (A B : Nat) : Nat :=
  if B < 2 * (A % B) then A / B + 1
  else if 2 * (A % B) < B then A / B
  else A / B + A / B % 2

/-- Assemble a binary32 value from a rounded significand `q` at scale
`2^eT` (with `2^23 ≤ q ≤ 2^24` for normal inputs, or `q < 2^23` at
`eT = -149` for subnormal ones): renormalize a carry-out at `2^24`,
underflow to zero, and overflow to infinity beyond exponent 104. -/
def roundFin (s : Bool) (eT : Int) (q : Nat) : F32 :=
  let q2 := if 2 ^ 24 ≤ q then q / 2 else q
  let e2 := if 2 ^ 24 ≤ q then eT + 1 else eT
  if q2 = 0 then F32.zero s
  else if 104 < e2 then F32.inf s
  else F32.num s e2 q2

/-- The rounding scale for `a / b`: the significand is formed at
`2^(⌊log₂ (a/b)⌋ - 23)`, floored at the subnormal scale `2^-149`. -/
def scaleExp (a b : Nat) : Int := max (findL a b - 23) (-149)

/-- Round the positive rational `a / b` to the nearest binary32 value
(ties to even), attach the sign `s`, and overflow to infinity above the
largest finite value. -/
def roundRat (s : Bool) (a b : Nat) : F32 :=
  if a = 0 then F32.zero s
  else
    roundFin s (scaleExp a b)
      (roundQ (a * 2 ^ (-scaleExp a b).toNat) (b * 2 ^ (scaleExp a b).toNat))

/-- Round the dyadic rational `± m * 2^e` to binary32. -/
def roundDyadic (s : Bool) (m : Nat) (e : Int) : F32 :=
  if 0 ≤ e then roundRat s (m * 2 ^ e.toNat) 1 else roundRat s m (2 ^ (-e).toNat)

def f32Neg : F32 → F32
  | .nan => .nan
  | .inf s => .inf !s
  | .zero s => .zero !s
  | .num s e m => .num (!s) e m

/-- IEEE-754 binary32 addition (round to nearest, ties to even).  An exact
zero sum of nonzero operands is `+0`, per the rounding-direction rules. -/
def f32Add : F32 → F32 → F32
  | .nan, _ => .nan
  | _, .nan => .nan
  | .inf s, .inf t => if s = t then .inf s else .nan
  | .inf s, _ => .inf s
  | _, .inf t => .inf t
  | .zero s, .zero t => if s = t then .zero s else .zero false
  | .zero _, y => y
  | x, .zero _ => x
  | .num s1 e1 m1, .num s2 e2 m2 =>
    let emin := min e1 e2
    let i1 : Int := (if s1 then -(m1 : Int) else (m1 : Int)) * 2 ^ (e1 - emin).toNat
    let i2 : Int := (if s2 then -(m2 : Int) else (m2 : Int)) * 2 ^ (e2 - emin).toNat
    let sum := i1 + i2
    if sum = 0 then .zero false
    else roundDyadic (decide (sum < 0)) sum.natAbs emin

def f32Sub (x y : F32) : F32 := f32Add x (f32Neg y)

/-- IEEE-754 binary32 multiplication. -/
def f32Mul : F32 → F32 → F32
  | .nan, _ => .nan
  | _, .nan => .nan
  | .inf s, .inf t => .inf (s != t)
  | .inf _, .zero _ => .nan
  | .zero _, .inf _ => .nan
  | .inf s, .num t _ _ => .inf (s != t)
  | .num t _ _, .inf s => .inf (s != t)
  | .zero s, .zero t => .zero (s != t)
  | .zero s, .num t _ _ => .zero (s != t)
  | .num t _ _, .zero s => .zero (s != t)
  | .num s1 e1 m1, .num s2 e2 m2 => roundDyadic (s1 != s2) (m1 * m2) (e1 + e2)

/-- IEEE-754 binary32 division. -/
def f32Div : F32 → F32 → F32
  | .nan, _ => .nan
  | _, .nan => .nan
  | .inf _, .inf _ => .nan
  | .inf s, .zero t => .inf (s != t)
  | .inf s, .num t _ _ => .inf (s != t)
  | .zero s, .inf t => .zero (s != t)
  | .zero _, .zero _ => .nan
  | .zero s, .num t _ _ => .zero (s != t)
  | .num s _ _, .inf t => .zero (s != t)
  | .num s _ _, .zero t => .inf (s != t)
  | .num s1 e1 m1, .num s2 e2 m2 =>
    roundRat (s1 != s2) (m1 * 2 ^ (e1 - e2).toNat) (m2 * 2 ^ (e2 - e1).toNat)

/-- The exponent of a finite `F32` (0 for zeros; unused otherwise). -/
def F32.fexp : F32 → Int
  | .num _ e _ => e
  | _ => 0

/-- The value of a finite (zero or `num`) `F32` scaled by `2^(-emin)`, as an
integer; exact whenever `emin ≤ fexp`. -/
def finInt (x : F32) (emin : Int) : Int :=
  match x with
  | .zero _ => 0
  | .num s e m => (if s then -(m : Int) else (m : Int)) * 2 ^ (e - emin).toNat
  | _ => 0

/-- IEEE-754 `<` (false whenever an operand is NaN; `-0 < +0` is false). -/
def F32.lt : F32 → F32 → Bool
  | .nan, _ => false
  | _, .nan => false
  | .inf s, .inf t => s && !t
  | .inf s, _ => s
  | _, .inf t => !t
  | x, y =>
    let emin := min x.fexp y.fexp
    decide (finInt x emin < finInt y emin)

/-- IEEE-754 `<=` (false whenever an operand is NaN; `-0 <= +0` is true). -/
def F32.le : F32 → F32 → Bool
  | .nan, _ => false
  | _, .nan => false
  | .inf s, .inf t => s || !t
  | .inf s, _ => s
  | _, .inf t => !t
  | x, y =>
    let emin := min x.fexp y.fexp
    decide (finInt x emin ≤ finInt y emin)

/-- IEEE-754 `==` (false whenever an operand is NaN; `-0 == +0` is true). -/
def F32.beq : F32 → F32 → Bool
  | .nan, _ => false
  | _, .nan => false
  | .inf s, .inf t => decide (s = t)
  | .inf _, _ => false
  | _, .inf _ => false
  | x, y =>
    let emin := min x.fexp y.fexp
    decide (finInt x emin = finInt y emin)

/-- Go's builtin `min` for float32: NaN if any operand is NaN, and the
negative zero is smaller than the positive zero. -/
def goMin (x y : F32) : F32 :=
  if x.isNan || y.isNan then F32.nan
  else if F32.lt x y then x
  else if F32.lt y x then y
  else if x = F32.zero true then x
  else if y = F32.zero true then y
  else x

/-- Go's builtin `max` for float32: NaN if any operand is NaN, and the
positive zero is larger than the negative zero. -/
def goMax (x y : F32) : F32 :=
  if x.isNan || y.isNan then F32.nan
  else if F32.lt x y then y
  else if F32.lt y x then x
  else if x = F32.zero false then x
  else if y = F32.zero false then y
  else x

/-- The term `MaxFloat32 = 0x1p127 * (1 + (1 - 0x1p-23)) = (2^24 - 1) * 2^104`
(from `float32.go`). -/
def maxFloat32 : F32 := F32.num false 104 16777215

def f32One : F32 := F32.num false (-23) 8388608

/-- The term `float32(n)` conversion of an integer (`int64` nanosecond count). -/
def f32OfInt (n : Int) : F32 :=
  if n = 0 then F32.zero false else roundDyadic (decide (n < 0)) n.natAbs 0

def f32OfNat (n : Nat) : F32 :=
  if n = 0 then F32.zero false else roundRat false n 1

/-- The term `seconds(d)` from `float32.go`: convert a `time.Duration` (int64
nanoseconds) to float32 seconds, `float32(d) / 1e9`. -/
def seconds (d : Int) : F32 := f32Div (f32OfInt d) (f32OfNat 1000000000)

/-- The clamp to `[-MaxFloat32, MaxFloat32]` used by the anti-windup and
tracking controllers: `max(-MaxFloat32, min(MaxFloat32, x))`. -/
def clampMF (x : F32) : F32 := goMax (f32Neg maxFloat32) (goMin maxFloat32 x)

/-! ## The basic controller (`controller.go`) -/

structure ControllerConfig where
  ProportionalGain : F32
  IntegralGain : F32
  DerivativeGain : F32
  deriving DecidableEq

structure ControllerState where
  ControlError : F32
  ControlErrorIntegral : F32
  ControlErrorDerivative : F32
  ControlSignal : F32
  deriving DecidableEq

structure ControllerInput where
  ReferenceSignal : F32
  ActualSignal : F32
  SamplingInterval : Int
  deriving DecidableEq

/-- The term `Controller.Update` from `controller.go`, transcribed statement by
statement. -/
def Controller.Update (cfg : ControllerConfig) (s : ControllerState)
    (input : ControllerInput) : ControllerState :=
  let previousError := s.ControlError
  let controlError := f32Sub input.ReferenceSignal input.ActualSignal
  let controlErrorDerivative :=
    f32Div (f32Sub controlError previousError) (seconds input.SamplingInterval)
  let controlErrorIntegral :=
    f32Add s.ControlErrorIntegral (f32Mul controlError (seconds input.SamplingInterval))
  let controlSignal :=
    f32Add
      (f32Add (f32Mul cfg.ProportionalGain controlError)
        (f32Mul cfg.IntegralGain controlErrorIntegral))
      (f32Mul cfg.DerivativeGain controlErrorDerivative)
  ⟨controlError, controlErrorIntegral, controlErrorDerivative, controlSignal⟩

/-- The term `Controller.Reset`: `c.State = ControllerState{}` (the Go zero value,
all fields `+0`). -/
def Controller.Reset (_s : ControllerState) : ControllerState :=
  ⟨F32.zero false, F32.zero false, F32.zero false, F32.zero false⟩

/-! ## The PI controller (`pi_controller.go`) -/

structure PIControllerConfig where
  ProportionalGain : F32
  IntegralGain : F32
  MaxIntegralError : F32
  MinIntegralError : F32
  MaxOutput : F32
  MinOutput : F32
  deriving DecidableEq

structure PIControllerState where
  ControlErrorIntegral : F32
  ControlSignal : F32
  deriving DecidableEq

structure PIControllerInput where
  ReferenceSignal : F32
  ActualSignal : F32
  SamplingInterval : Int
  deriving DecidableEq

/-- The term `PIController.Update` from `pi_controller.go`. -/
def PIController.Update (cfg : PIControllerConfig) (s : PIControllerState)
    (input : PIControllerInput) : PIControllerState :=
  let controlError := f32Sub input.ReferenceSignal input.ActualSignal
  let integral :=
    goMax cfg.MinIntegralError
      (goMin cfg.MaxIntegralError
        (f32Add s.ControlErrorIntegral
          (f32Mul controlError (seconds input.SamplingInterval))))
  let signal :=
    f32Add (f32Mul cfg.ProportionalGain controlError) (f32Mul cfg.IntegralGain integral)
  ⟨integral, signal⟩

/-- The term `PIController.Reset`. -/
def PIController.Reset (_s : PIControllerState) : PIControllerState :=
  ⟨F32.zero false, F32.zero false⟩

/-! ## The anti-windup controller -/

structure AntiWindupControllerConfig where
  ProportionalGain : F32
  IntegralGain : F32
  DerivativeGain : F32
  AntiWindUpGain : F32
  IntegralDischargeTimeConstant : F32
  LowPassTimeConstant : Int
  MaxOutput : F32
  MinOutput : F32
  deriving DecidableEq

structure AntiWindupControllerState where
  ControlError : F32
  ControlErrorIntegrand : F32
  ControlErrorIntegral : F32
  ControlErrorDerivative : F32
  ControlSignal : F32
  UnsaturatedControlSignal : F32
  deriving DecidableEq

structure AntiWindupControllerInput where
  ReferenceSignal : F32
  ActualSignal : F32
  FeedForwardSignal : F32
  SamplingInterval : Int
  deriving DecidableEq

/-- The term `AntiWindupController.Update`, transcribed statement by statement.  The
integrand uses the freshly computed saturated `ControlSignal`. -/
def AntiWindupController.Update (cfg : AntiWindupControllerConfig)
    (s : AntiWindupControllerState) (input : AntiWindupControllerInput) :
    AntiWindupControllerState :=
  let e := f32Sub input.ReferenceSignal input.ActualSignal
  let controlErrorIntegral :=
    f32Add (f32Mul s.ControlErrorIntegrand (seconds input.SamplingInterval))
      s.ControlErrorIntegral
  let controlErrorDerivative :=
    f32Div
      (f32Add
        (f32Mul (f32Div f32One (seconds cfg.LowPassTimeConstant))
          (f32Sub e s.ControlError))
        s.ControlErrorDerivative)
      (f32Add (f32Div (seconds input.SamplingInterval) (seconds cfg.LowPassTimeConstant))
        f32One)
  let unsat :=
    f32Add
      (f32Add
        (f32Add (f32Mul e cfg.ProportionalGain)
          (f32Mul cfg.IntegralGain controlErrorIntegral))
        (f32Mul cfg.DerivativeGain controlErrorDerivative))
      input.FeedForwardSignal
  let controlSignal := goMax cfg.MinOutput (goMin cfg.MaxOutput unsat)
  let integrand := f32Add e (f32Mul cfg.AntiWindUpGain (f32Sub controlSignal unsat))
  { ControlError := clampMF e
    ControlErrorIntegrand := clampMF integrand
    ControlErrorIntegral := clampMF controlErrorIntegral
    ControlErrorDerivative := clampMF controlErrorDerivative
    ControlSignal := controlSignal
    UnsaturatedControlSignal := unsat }

/-- The term `AntiWindupController.Reset`. -/
def AntiWindupController.Reset (_s : AntiWindupControllerState) :
    AntiWindupControllerState :=
  ⟨F32.zero false, F32.zero false, F32.zero false, F32.zero false, F32.zero false,
    F32.zero false⟩

/-- The term `AntiWindupController.DischargeIntegral`: zero the integrand and scale the
integral by `max(0, min(1 - seconds(dt)/IntegralDischargeTimeConstant, 1.0))`. -/
def AntiWindupController.DischargeIntegral (cfg : AntiWindupControllerConfig)
    (s : AntiWindupControllerState) (dt : Int) : AntiWindupControllerState :=
  { s with
    ControlErrorIntegrand := F32.zero false
    ControlErrorIntegral :=
      f32Mul
        (goMax (F32.zero false)
          (goMin (f32Sub f32One (f32Div (seconds dt) cfg.IntegralDischargeTimeConstant))
            f32One))
        s.ControlErrorIntegral }

/-! ## The tracking controller -/

structure TrackingControllerConfig where
  ProportionalGain : F32
  IntegralGain : F32
  DerivativeGain : F32
  AntiWindUpGain : F32
  IntegralDischargeTimeConstant : F32
  LowPassTimeConstant : Int
  MaxOutput : F32
  MinOutput : F32
  deriving DecidableEq

structure TrackingControllerState where
  ControlError : F32
  ControlErrorIntegrand : F32
  ControlErrorIntegral : F32
  ControlErrorDerivative : F32
  ControlSignal : F32
  UnsaturatedControlSignal : F32
  deriving DecidableEq

structure TrackingControllerInput where
  ReferenceSignal : F32
  ActualSignal : F32
  FeedForwardSignal : F32
  AppliedControlSignal : F32
  SamplingInterval : Int
  deriving DecidableEq

/-- The term `TrackingController.Update`: identical to the anti-windup update except
that the integrand tracks `input.AppliedControlSignal` instead of the
computed `ControlSignal`. -/
def TrackingController.Update (cfg : TrackingControllerConfig)
    (s : TrackingControllerState) (input : TrackingControllerInput) :
    TrackingControllerState :=
  let e := f32Sub input.ReferenceSignal input.ActualSignal
  let controlErrorIntegral :=
    f32Add (f32Mul s.ControlErrorIntegrand (seconds input.SamplingInterval))
      s.ControlErrorIntegral
  let controlErrorDerivative :=
    f32Div
      (f32Add
        (f32Mul (f32Div f32One (seconds cfg.LowPassTimeConstant))
          (f32Sub e s.ControlError))
        s.ControlErrorDerivative)
      (f32Add (f32Div (seconds input.SamplingInterval) (seconds cfg.LowPassTimeConstant))
        f32One)
  let unsat :=
    f32Add
      (f32Add
        (f32Add (f32Mul e cfg.ProportionalGain)
          (f32Mul cfg.IntegralGain controlErrorIntegral))
        (f32Mul cfg.DerivativeGain controlErrorDerivative))
      input.FeedForwardSignal
  let controlSignal := goMax cfg.MinOutput (goMin cfg.MaxOutput unsat)
  let integrand :=
    f32Add e (f32Mul cfg.AntiWindUpGain (f32Sub input.AppliedControlSignal unsat))
  { ControlError := clampMF e
    ControlErrorIntegrand := clampMF integrand
    ControlErrorIntegral := clampMF controlErrorIntegral
    ControlErrorDerivative := clampMF controlErrorDerivative
    ControlSignal := controlSignal
    UnsaturatedControlSignal := unsat }

/-- The term `TrackingController.Reset`. -/
def TrackingController.Reset (_s : TrackingControllerState) :
    TrackingControllerState :=
  ⟨F32.zero false, F32.zero false, F32.zero false, F32.zero false, F32.zero false,
    F32.zero false⟩

/-- The term `TrackingController.DischargeIntegral`. -/
def TrackingController.DischargeIntegral (cfg : TrackingControllerConfig)
    (s : TrackingControllerState) (dt : Int) : TrackingControllerState :=
  { s with
    ControlErrorIntegrand := F32.zero false
    ControlErrorIntegral :=
      f32Mul
        (goMax (F32.zero false)
          (goMin (f32Sub f32One (f32Div (seconds dt) cfg.IntegralDischargeTimeConstant))
            f32One))
        s.ControlErrorIntegral }

/-- Applying a list of inputs in order (`Update` called once per element). -/
def AntiWindupController.UpdateSeq (cfg : AntiWindupControllerConfig)
    (s : AntiWindupControllerState) (inputs : List AntiWindupControllerInput) :
    AntiWindupControllerState :=
  inputs.foldl (AntiWindupController.Update cfg) s

/-- Applying a list of inputs in order (`Update` called once per element). -/
def TrackingController.UpdateSeq (cfg : TrackingControllerConfig)
    (s : TrackingControllerState) (inputs : List TrackingControllerInput) :
    TrackingControllerState :=
  inputs.foldl (TrackingController.Update cfg) s

/-! ## Basic facts about the comparison operators -/

/-- A finite (zero, subnormal or normal) value: not NaN and not infinite. -/
def F32.finite (x : F32) : Bool := !x.isNan && !x.isInf

theorem finInt_val (x : F32) (emin : Int) (hfin : x.finite = true)
    (he : emin ≤ x.fexp) : ((finInt x emin : ℤ) : ℚ) * (2 : ℚ) ^ emin = x.val := by
  cases x with
  | nan => simp [F32.finite, F32.isNan] at hfin
  | inf s => simp [F32.finite, F32.isInf] at hfin
  | zero s => simp [finInt, F32.val]
  | num s e m =>
    simp only [finInt, F32.val, F32.fexp] at he ⊢
    have h1 : ((2 : ℚ) ^ (e - emin).toNat) = (2 : ℚ) ^ (e - emin) := by
      rw [← zpow_natCast]
      congr 1
      omega
    have h2 : (2 : ℚ) ^ (e - emin) * (2 : ℚ) ^ emin = (2 : ℚ) ^ e := by
      rw [← zpow_add₀ (two_ne_zero)]
      congr 1
      omega
    cases s <;> push_cast <;> rw [mul_assoc, h1, h2] <;> simp

theorem lt_fin (x y : F32) (hx : x.finite = true) (hy : y.finite = true) :
    F32.lt x y = decide (x.val < y.val) := by
  have hx2 := hx
  have hy2 := hy
  simp only [F32.finite, Bool.and_eq_true, Bool.not_eq_true'] at hx2 hy2
  have hpos : (0 : ℚ) < (2 : ℚ) ^ (min x.fexp y.fexp) := by positivity
  have hvx := finInt_val x (min x.fexp y.fexp) hx (min_le_left _ _)
  have hvy := finInt_val y (min x.fexp y.fexp) hy (min_le_right _ _)
  cases x <;> cases y <;>
    first
      | (simp [F32.isNan] at hx2; done)
      | (simp [F32.isNan] at hy2; done)
      | (simp [F32.isInf] at hx2; done)
      | (simp [F32.isInf] at hy2; done)
      | (simp only [F32.lt]
         rw [decide_eq_decide, ← hvx, ← hvy, mul_lt_mul_right hpos, Int.cast_lt])

theorem le_fin (x y : F32) (hx : x.finite = true) (hy : y.finite = true) :
    F32.le x y = decide (x.val ≤ y.val) := by
  have hx2 := hx
  have hy2 := hy
  simp only [F32.finite, Bool.and_eq_true, Bool.not_eq_true'] at hx2 hy2
  have hpos : (0 : ℚ) < (2 : ℚ) ^ (min x.fexp y.fexp) := by positivity
  have hvx := finInt_val x (min x.fexp y.fexp) hx (min_le_left _ _)
  have hvy := finInt_val y (min x.fexp y.fexp) hy (min_le_right _ _)
  cases x <;> cases y <;>
    first
      | (simp [F32.isNan] at hx2; done)
      | (simp [F32.isNan] at hy2; done)
      | (simp [F32.isInf] at hx2; done)
      | (simp [F32.isInf] at hy2; done)
      | (simp only [F32.le]
         rw [decide_eq_decide, ← hvx, ← hvy, mul_le_mul_right hpos, Int.cast_le])

theorem beq_fin (x y : F32) (hx : x.finite = true) (hy : y.finite = true) :
    F32.beq x y = decide (x.val = y.val) := by
  have hx2 := hx
  have hy2 := hy
  simp only [F32.finite, Bool.and_eq_true, Bool.not_eq_true'] at hx2 hy2
  have hpos : (0 : ℚ) < (2 : ℚ) ^ (min x.fexp y.fexp) := by positivity
  have hvx := finInt_val x (min x.fexp y.fexp) hx (min_le_left _ _)
  have hvy := finInt_val y (min x.fexp y.fexp) hy (min_le_right _ _)
  cases x <;> cases y <;>
    first
      | (simp [F32.isNan] at hx2; done)
      | (simp [F32.isNan] at hy2; done)
      | (simp [F32.isInf] at hx2; done)
      | (simp [F32.isInf] at hy2; done)
      | (simp only [F32.beq]
         rw [decide_eq_decide, ← hvx, ← hvy,
           mul_left_inj' (ne_of_gt hpos), Int.cast_inj])

theorem fin_zero (s : Bool) : (F32.zero s).finite = true := rfl

theorem fin_num (s : Bool) (e : Int) (m : Nat) : (F32.num s e m).finite = true := rfl

theorem le_no_nan (x y : F32) (h : F32.le x y = true) :
    x.isNan = false ∧ y.isNan = false := by
  cases x <;> cases y <;> simp_all [F32.le, F32.isNan]

theorem le_refl_f32 (x : F32) (h : x.isNan = false) : F32.le x x = true := by
  cases x <;> simp_all [F32.le, F32.isNan]

theorem lt_le_f32 (x y : F32) (h : F32.lt x y = true) : F32.le x y = true := by
  cases x <;> cases y <;>
    first
      | (simp_all [F32.lt, F32.le]; done)
      | (simp_all [F32.lt, F32.le, ← Bool.not_eq_true]; tauto)
      | (rw [lt_fin _ _ (by first | exact fin_zero _ | exact fin_num _ _ _)
            (by first | exact fin_zero _ | exact fin_num _ _ _)] at h
         rw [le_fin _ _ (by first | exact fin_zero _ | exact fin_num _ _ _)
            (by first | exact fin_zero _ | exact fin_num _ _ _)]
         simp only [decide_eq_true_eq] at h ⊢
         linarith)

theorem not_lt_le (x y : F32) (hx : x.isNan = false) (hy : y.isNan = false)
    (h : F32.lt x y = false) : F32.le y x = true := by
  cases x <;> cases y <;>
    first
      | (simp_all [F32.lt, F32.le, F32.isNan]; done)
      | (simp_all [F32.lt, F32.le, F32.isNan, ← Bool.not_eq_true]; tauto)
      | (rw [lt_fin _ _ (by first | exact fin_zero _ | exact fin_num _ _ _)
            (by first | exact fin_zero _ | exact fin_num _ _ _)] at h
         rw [le_fin _ _ (by first | exact fin_zero _ | exact fin_num _ _ _)
            (by first | exact fin_zero _ | exact fin_num _ _ _)]
         simp only [decide_eq_false_iff_not] at h
         simp only [decide_eq_true_eq]
         linarith)

theorem le_not_lt (x y : F32) (h : F32.le x y = true) : F32.lt y x = false := by
  cases x <;> cases y <;>
    first
      | (simp_all [F32.lt, F32.le]; done)
      | (simp_all [F32.lt, F32.le, ← Bool.not_eq_true]; tauto)
      | (rw [le_fin _ _ (by first | exact fin_zero _ | exact fin_num _ _ _)
            (by first | exact fin_zero _ | exact fin_num _ _ _)] at h
         rw [lt_fin _ _ (by first | exact fin_zero _ | exact fin_num _ _ _)
            (by first | exact fin_zero _ | exact fin_num _ _ _)]
         simp only [decide_eq_true_eq] at h
         simp only [decide_eq_false_iff_not]
         linarith)

theorem beq_of_not_lt (x y : F32) (hx : x.isNan = false) (hy : y.isNan = false)
    (hxy : F32.lt x y = false) (hyx : F32.lt y x = false) : F32.beq x y = true := by
  cases x <;> cases y <;>
    first
      | (simp_all [F32.lt, F32.beq, F32.isNan]; done)
      | (rename_i s t
         cases s <;> cases t <;> simp_all [F32.lt, F32.beq, F32.isNan]
         done)
      | (rw [lt_fin _ _ (by first | exact fin_zero _ | exact fin_num _ _ _)
            (by first | exact fin_zero _ | exact fin_num _ _ _)] at hxy
         rw [lt_fin _ _ (by first | exact fin_zero _ | exact fin_num _ _ _)
            (by first | exact fin_zero _ | exact fin_num _ _ _)] at hyx
         rw [beq_fin _ _ (by first | exact fin_zero _ | exact fin_num _ _ _)
            (by first | exact fin_zero _ | exact fin_num _ _ _)]
         simp only [decide_eq_false_iff_not] at hxy hyx
         simp only [decide_eq_true_eq]
         linarith)

theorem beq_le_left (a b c : F32) (hab : F32.beq a b = true)
    (h : F32.le a c = true) : F32.le b c = true := by
  cases a <;> cases b <;> cases c <;>
    first
      | (simp_all [F32.le, F32.beq]; done)
      | (simp_all [F32.le, F32.beq, ← Bool.not_eq_true]; tauto)
      | (rw [beq_fin _ _ (by first | exact fin_zero _ | exact fin_num _ _ _)
            (by first | exact fin_zero _ | exact fin_num _ _ _)] at hab
         rw [le_fin _ _ (by first | exact fin_zero _ | exact fin_num _ _ _)
            (by first | exact fin_zero _ | exact fin_num _ _ _)] at h
         rw [le_fin _ _ (by first | exact fin_zero _ | exact fin_num _ _ _)
            (by first | exact fin_zero _ | exact fin_num _ _ _)]
         simp only [decide_eq_true_eq] at hab h ⊢
         linarith)

theorem beq_le_right (a b c : F32) (hab : F32.beq a b = true)
    (h : F32.le c a = true) : F32.le c b = true := by
  cases a <;> cases b <;> cases c <;>
    first
      | (simp_all [F32.le, F32.beq]; done)
      | (simp_all [F32.le, F32.beq, ← Bool.not_eq_true]; tauto)
      | (rw [beq_fin _ _ (by first | exact fin_zero _ | exact fin_num _ _ _)
            (by first | exact fin_zero _ | exact fin_num _ _ _)] at hab
         rw [le_fin _ _ (by first | exact fin_zero _ | exact fin_num _ _ _)
            (by first | exact fin_zero _ | exact fin_num _ _ _)] at h
         rw [le_fin _ _ (by first | exact fin_zero _ | exact fin_num _ _ _)
            (by first | exact fin_zero _ | exact fin_num _ _ _)]
         simp only [decide_eq_true_eq] at hab h ⊢
         linarith)

theorem beq_refl_f32 (x : F32) (h : x.isNan = false) : F32.beq x x = true := by
  cases x <;> simp_all [F32.beq, F32.isNan]

theorem beq_symm (x y : F32) (h : F32.beq x y = true) : F32.beq y x = true := by
  cases x <;> cases y <;>
    first
      | (simp_all [F32.beq]; done)
      | (rw [beq_fin _ _ (by first | exact fin_zero _ | exact fin_num _ _ _)
            (by first | exact fin_zero _ | exact fin_num _ _ _)] at h
         rw [beq_fin _ _ (by first | exact fin_zero _ | exact fin_num _ _ _)
            (by first | exact fin_zero _ | exact fin_num _ _ _)]
         simp only [decide_eq_true_eq] at h ⊢
         linarith)

theorem beq_no_nan (x y : F32) (h : F32.beq x y = true) :
    x.isNan = false ∧ y.isNan = false := by
  cases x <;> cases y <;> simp_all [F32.beq, F32.isNan]

theorem beq_trans (a b c : F32) (h1 : F32.beq a b = true) (h2 : F32.beq b c = true) :
    F32.beq a c = true := by
  cases a <;> cases b <;> cases c <;>
    first
      | (simp_all [F32.beq]; done)
      | (rw [beq_fin _ _ (by first | exact fin_zero _ | exact fin_num _ _ _)
            (by first | exact fin_zero _ | exact fin_num _ _ _)] at h1
         rw [beq_fin _ _ (by first | exact fin_zero _ | exact fin_num _ _ _)
            (by first | exact fin_zero _ | exact fin_num _ _ _)] at h2
         rw [beq_fin _ _ (by first | exact fin_zero _ | exact fin_num _ _ _)
            (by first | exact fin_zero _ | exact fin_num _ _ _)]
         simp only [decide_eq_true_eq] at h1 h2 ⊢
         linarith)

theorem goMin_nan_right (x : F32) : goMin x F32.nan = F32.nan := by
  simp [goMin, F32.isNan]

theorem goMax_nan_right (x : F32) : goMax x F32.nan = F32.nan := by
  simp [goMax, F32.isNan]

theorem goMin_nan_left (y : F32) : goMin F32.nan y = F32.nan := by
  simp [goMin, F32.isNan]

theorem goMax_nan_left (y : F32) : goMax F32.nan y = F32.nan := by
  simp [goMax, F32.isNan]

theorem goMin_cases (x y : F32) (hx : x.isNan = false) (hy : y.isNan = false) :
    goMin x y = x ∨ goMin x y = y := by
  have hcond : (x.isNan || y.isNan) = false := by rw [hx, hy]; rfl
  unfold goMin
  rw [hcond]
  simp only [Bool.false_eq_true, if_false]
  split_ifs <;> tauto

theorem goMax_cases (x y : F32) (hx : x.isNan = false) (hy : y.isNan = false) :
    goMax x y = x ∨ goMax x y = y := by
  have hcond : (x.isNan || y.isNan) = false := by rw [hx, hy]; rfl
  unfold goMax
  rw [hcond]
  simp only [Bool.false_eq_true, if_false]
  split_ifs <;> tauto

theorem goMin_le_left (x y : F32) (hx : x.isNan = false) (hy : y.isNan = false) :
    F32.le (goMin x y) x = true := by
  have hcond : (x.isNan || y.isNan) = false := by rw [hx, hy]; rfl
  unfold goMin
  rw [hcond]
  simp only [Bool.false_eq_true, if_false]
  split_ifs with h1 h2 h3 h4
  · exact le_refl_f32 x hx
  · exact lt_le_f32 y x h2
  · exact le_refl_f32 x hx
  · exact not_lt_le x y hx hy (by rw [← Bool.not_eq_true]; exact h1)
  · exact le_refl_f32 x hx

theorem goMin_le_right (x y : F32) (hx : x.isNan = false) (hy : y.isNan = false) :
    F32.le (goMin x y) y = true := by
  have hcond : (x.isNan || y.isNan) = false := by rw [hx, hy]; rfl
  unfold goMin
  rw [hcond]
  simp only [Bool.false_eq_true, if_false]
  split_ifs with h1 h2 h3 h4
  · exact lt_le_f32 x y h1
  · exact le_refl_f32 y hy
  · exact not_lt_le y x hy hx (by rw [← Bool.not_eq_true]; exact h2)
  · exact le_refl_f32 y hy
  · exact not_lt_le y x hy hx (by rw [← Bool.not_eq_true]; exact h2)

theorem goMax_ge_left (x y : F32) (hx : x.isNan = false) (hy : y.isNan = false) :
    F32.le x (goMax x y) = true := by
  have hcond : (x.isNan || y.isNan) = false := by rw [hx, hy]; rfl
  unfold goMax
  rw [hcond]
  simp only [Bool.false_eq_true, if_false]
  split_ifs with h1 h2 h3 h4
  · exact lt_le_f32 x y h1
  · exact le_refl_f32 x hx
  · exact le_refl_f32 x hx
  · exact not_lt_le y x hy hx (by rw [← Bool.not_eq_true]; exact h2)
  · exact le_refl_f32 x hx

theorem goMax_ge_right (x y : F32) (hx : x.isNan = false) (hy : y.isNan = false) :
    F32.le y (goMax x y) = true := by
  have hcond : (x.isNan || y.isNan) = false := by rw [hx, hy]; rfl
  unfold goMax
  rw [hcond]
  simp only [Bool.false_eq_true, if_false]
  split_ifs with h1 h2 h3 h4
  · exact le_refl_f32 y hy
  · exact lt_le_f32 y x h2
  · exact not_lt_le x y hx hy (by rw [← Bool.not_eq_true]; exact h1)
  · exact le_refl_f32 y hy
  · exact not_lt_le x y hx hy (by rw [← Bool.not_eq_true]; exact h1)

theorem goMin_beq (x y : F32) (h : F32.le y x = true) :
    F32.beq (goMin x y) y = true := by
  obtain ⟨hy, hx⟩ := le_no_nan y x h
  have hnlt : F32.lt x y = false := le_not_lt y x h
  have hcond : (x.isNan || y.isNan) = false := by rw [hx, hy]; rfl
  unfold goMin
  rw [hcond]
  simp only [Bool.false_eq_true, if_false]
  split_ifs with h1 h2 h3 h4
  · rw [h1] at hnlt; exact absurd hnlt (by simp)
  · exact beq_refl_f32 y hy
  · exact beq_of_not_lt x y hx hy hnlt (by rw [← Bool.not_eq_true]; exact h2)
  · exact beq_refl_f32 y hy
  · exact beq_of_not_lt x y hx hy hnlt (by rw [← Bool.not_eq_true]; exact h2)

theorem goMax_beq (x y : F32) (h : F32.le x y = true) :
    F32.beq (goMax x y) y = true := by
  obtain ⟨hx, hy⟩ := le_no_nan x y h
  have hnlt : F32.lt y x = false := le_not_lt x y h
  have hcond : (x.isNan || y.isNan) = false := by rw [hx, hy]; rfl
  unfold goMax
  rw [hcond]
  simp only [Bool.false_eq_true, if_false]
  split_ifs with h1 h2 h3 h4
  · exact beq_refl_f32 y hy
  · rw [h2] at hnlt; exact absurd hnlt (by simp)
  · exact beq_of_not_lt x y hx hy (by rw [← Bool.not_eq_true]; exact h1) hnlt
  · exact beq_refl_f32 y hy
  · exact beq_of_not_lt x y hx hy (by rw [← Bool.not_eq_true]; exact h1) hnlt

theorem goMin_no_nan (x y : F32) (hx : x.isNan = false) (hy : y.isNan = false) :
    (goMin x y).isNan = false := by
  rcases goMin_cases x y hx hy with h | h <;> rw [h] <;> assumption

theorem goMax_no_nan (x y : F32) (hx : x.isNan = false) (hy : y.isNan = false) :
    (goMax x y).isNan = false := by
  rcases goMax_cases x y hx hy with h | h <;> rw [h] <;> assumption

/-- The saturation `max(mn, min(mx, u))` stays below `mx`. -/
theorem sat_le_hi (mn mx u : F32) (hle : F32.le mn mx = true) (hu : u.isNan = false) :
    F32.le (goMax mn (goMin mx u)) mx = true := by
  obtain ⟨hmn, hmx⟩ := le_no_nan mn mx hle
  have hminn : (goMin mx u).isNan = false := goMin_no_nan mx u hmx hu
  rcases goMax_cases mn (goMin mx u) hmn hminn with h | h <;> rw [h]
  · exact hle
  · exact goMin_le_left mx u hmx hu

/-- The saturation `max(mn, min(mx, u))` stays above `mn`. -/
theorem sat_ge_lo (mn mx u : F32) (hle : F32.le mn mx = true) (hu : u.isNan = false) :
    F32.le mn (goMax mn (goMin mx u)) = true := by
  obtain ⟨hmn, hmx⟩ := le_no_nan mn mx hle
  exact goMax_ge_left mn (goMin mx u) hmn (goMin_no_nan mx u hmx hu)

/-- When `u` is within the bounds, the saturation compares IEEE-equal to `u`. -/
theorem sat_beq (mn mx u : F32) (h1 : F32.le mn u = true) (h2 : F32.le u mx = true) :
    F32.beq (goMax mn (goMin mx u)) u = true := by
  have hb1 : F32.beq (goMin mx u) u = true := goMin_beq mx u h2
  have hle : F32.le mn (goMin mx u) = true :=
    beq_le_right u (goMin mx u) mn (beq_symm _ _ hb1) h1
  exact beq_trans _ _ _ (goMax_beq mn (goMin mx u) hle) hb1

theorem goMin_mem (x y : F32) :
    goMin x y = F32.nan ∨ goMin x y = x ∨ goMin x y = y := by
  unfold goMin
  split_ifs <;> tauto

theorem goMax_mem (x y : F32) :
    goMax x y = F32.nan ∨ goMax x y = x ∨ goMax x y = y := by
  unfold goMax
  split_ifs <;> tauto

theorem goMin_inf_right_pos (x : F32) (hx : x.isNan = false) (hxi : x.isInf = false) :
    goMin x (F32.inf false) = x := by
  cases x <;> simp_all [goMin, F32.lt, F32.isNan, F32.isInf]

theorem goMin_inf_right_neg (x : F32) (hx : x.isNan = false) :
    goMin x (F32.inf true) = F32.inf true := by
  cases x <;> simp_all [goMin, F32.lt, F32.isNan]

theorem goMax_inf_right_neg (x : F32) (hx : x.isNan = false) :
    goMax x (F32.inf true) = x := by
  cases x <;> simp_all [goMax, F32.lt, F32.isNan]

/-- The saturation never returns an infinity when the two bounds are not
infinite, whatever `u` is (the key step of the anti-overflow clamps). -/
theorem sat_notInf (mn mx u : F32) (hmn : mn.isInf = false) (hmx : mx.isInf = false) :
    (goMax mn (goMin mx u)).isInf = false := by
  by_cases hmnn : mn.isNan = true
  · have h : mn = F32.nan := by cases mn <;> simp_all [F32.isNan]
    rw [h, goMax_nan_left]
    rfl
  by_cases hmxn : mx.isNan = true
  · have h : mx = F32.nan := by cases mx <;> simp_all [F32.isNan]
    rw [h, goMin_nan_left, goMax_nan_right]
    rfl
  rw [Bool.not_eq_true] at hmnn hmxn
  cases u with
  | nan => rw [goMin_nan_right, goMax_nan_right]; rfl
  | inf s =>
    cases s
    · rw [goMin_inf_right_pos mx hmxn hmx]
      rcases goMax_mem mn mx with h | h | h <;> rw [h]
      · rfl
      · exact hmn
      · exact hmx
    · rw [goMin_inf_right_neg mx hmxn, goMax_inf_right_neg mn hmnn]
      exact hmn
  | zero s =>
    rcases goMax_mem mn (goMin mx (F32.zero s)) with h | h | h <;> rw [h]
    · rfl
    · exact hmn
    · rcases goMin_mem mx (F32.zero s) with h2 | h2 | h2 <;> rw [h2]
      · rfl
      · exact hmx
      · rfl
  | num s e m =>
    rcases goMax_mem mn (goMin mx (F32.num s e m)) with h | h | h <;> rw [h]
    · rfl
    · exact hmn
    · rcases goMin_mem mx (F32.num s e m) with h2 | h2 | h2 <;> rw [h2]
      · rfl
      · exact hmx
      · rfl

/-- The `[-MaxFloat32, MaxFloat32]` clamp never returns an infinity. -/
theorem clamp_notInf (x : F32) : (clampMF x).isInf = false :=
  sat_notInf (f32Neg maxFloat32) maxFloat32 x rfl rfl

/-- Clamping NaN (with any bounds) gives NaN back. -/
theorem sat_nan (mn mx : F32) : goMax mn (goMin mx F32.nan) = F32.nan := by
  rw [goMin_nan_right, goMax_nan_right]

theorem clamp_nan : clampMF F32.nan = F32.nan := sat_nan _ _

theorem f32Add_nan_left (y : F32) : f32Add F32.nan y = F32.nan := by cases y <;> rfl

theorem f32Add_nan_right (x : F32) : f32Add x F32.nan = F32.nan := by cases x <;> rfl

theorem f32Sub_nan_left (y : F32) : f32Sub F32.nan y = F32.nan := by cases y <;> rfl

theorem f32Sub_nan_right (x : F32) : f32Sub x F32.nan = F32.nan := by cases x <;> rfl

theorem f32Mul_nan_left (y : F32) : f32Mul F32.nan y = F32.nan := by cases y <;> rfl

theorem f32Mul_nan_right (x : F32) : f32Mul x F32.nan = F32.nan := by cases x <;> rfl

theorem f32Div_nan_left (y : F32) : f32Div F32.nan y = F32.nan := by cases y <;> rfl

theorem f32Div_nan_right (x : F32) : f32Div x F32.nan = F32.nan := by cases x <;> rfl

/-! ## Claim theorems -/

/-- C9: for every controller variant (basic, PI, anti-windup, tracking) and
every prior state, `Reset()` sets every `State` field to exactly zero (the Go
zero value `+0`), and calling `Reset()` twice in a row leaves the state
identical to calling it once. -/
theorem spec_c9_reset_zeroes :
    (∀ s : ControllerState,
      Controller.Reset s = ⟨F32.zero false, F32.zero false, F32.zero false,
        F32.zero false⟩ ∧
      Controller.Reset (Controller.Reset s) = Controller.Reset s) ∧
    (∀ s : PIControllerState,
      PIController.Reset s = ⟨F32.zero false, F32.zero false⟩ ∧
      PIController.Reset (PIController.Reset s) = PIController.Reset s) ∧
    (∀ s : AntiWindupControllerState,
      AntiWindupController.Reset s = ⟨F32.zero false, F32.zero false,
        F32.zero false, F32.zero false, F32.zero false, F32.zero false⟩ ∧
      AntiWindupController.Reset (AntiWindupController.Reset s) =
        AntiWindupController.Reset s) ∧
    (∀ s : TrackingControllerState,
      TrackingController.Reset s = ⟨F32.zero false, F32.zero false,
        F32.zero false, F32.zero false, F32.zero false, F32.zero false⟩ ∧
      TrackingController.Reset (TrackingController.Reset s) =
        TrackingController.Reset s) :=
  ⟨fun _ => ⟨rfl, rfl⟩, fun _ => ⟨rfl, rfl⟩, fun _ => ⟨rfl, rfl⟩, fun _ => ⟨rfl, rfl⟩⟩

/-- C10: the PI controller applies no output saturation: two configs that
differ only in `MinOutput`/`MaxOutput` produce identical results from
`Update` (and `Reset`), so those two fields have no effect on any
operation. -/
theorem spec_c10_pi_output_bounds_unused (kp ki mxI mnI mxO mnO mxO2 mnO2 : F32)
    (s : PIControllerState) (input : PIControllerInput) :
    PIController.Update ⟨kp, ki, mxI, mnI, mxO, mnO⟩ s input =
      PIController.Update ⟨kp, ki, mxI, mnI, mxO2, mnO2⟩ s input ∧
    PIController.Reset s = PIController.Reset s :=
  ⟨rfl, rfl⟩

/-- C5: on the same config, state and input, the tracking controller computes
exactly the same error, integral, derivative, unsaturated signal and
saturated signal as the anti-windup controller, and differs only in the
integrand step: it uses `e + AntiWindUpGain*(AppliedControlSignal - unsat)`
where the anti-windup controller uses
`e + AntiWindUpGain*(ControlSignal - unsat)`. -/
theorem spec_c5_tracking_equiv (kp ki kd kaw tdis : F32) (tlp : Int)
    (mxo mno ce cei ceI ced cs ucs ref act ff applied : F32) (dt : Int) :
    (TrackingController.Update ⟨kp, ki, kd, kaw, tdis, tlp, mxo, mno⟩
        ⟨ce, cei, ceI, ced, cs, ucs⟩ ⟨ref, act, ff, applied, dt⟩).ControlError =
      (AntiWindupController.Update ⟨kp, ki, kd, kaw, tdis, tlp, mxo, mno⟩
        ⟨ce, cei, ceI, ced, cs, ucs⟩ ⟨ref, act, ff, dt⟩).ControlError ∧
    (TrackingController.Update ⟨kp, ki, kd, kaw, tdis, tlp, mxo, mno⟩
        ⟨ce, cei, ceI, ced, cs, ucs⟩ ⟨ref, act, ff, applied, dt⟩).ControlErrorIntegral =
      (AntiWindupController.Update ⟨kp, ki, kd, kaw, tdis, tlp, mxo, mno⟩
        ⟨ce, cei, ceI, ced, cs, ucs⟩ ⟨ref, act, ff, dt⟩).ControlErrorIntegral ∧
    (TrackingController.Update ⟨kp, ki, kd, kaw, tdis, tlp, mxo, mno⟩
        ⟨ce, cei, ceI, ced, cs, ucs⟩ ⟨ref, act, ff, applied, dt⟩).ControlErrorDerivative =
      (AntiWindupController.Update ⟨kp, ki, kd, kaw, tdis, tlp, mxo, mno⟩
        ⟨ce, cei, ceI, ced, cs, ucs⟩ ⟨ref, act, ff, dt⟩).ControlErrorDerivative ∧
    (TrackingController.Update ⟨kp, ki, kd, kaw, tdis, tlp, mxo, mno⟩
        ⟨ce, cei, ceI, ced, cs, ucs⟩
        ⟨ref, act, ff, applied, dt⟩).UnsaturatedControlSignal =
      (AntiWindupController.Update ⟨kp, ki, kd, kaw, tdis, tlp, mxo, mno⟩
        ⟨ce, cei, ceI, ced, cs, ucs⟩ ⟨ref, act, ff, dt⟩).UnsaturatedControlSignal ∧
    (TrackingController.Update ⟨kp, ki, kd, kaw, tdis, tlp, mxo, mno⟩
        ⟨ce, cei, ceI, ced, cs, ucs⟩ ⟨ref, act, ff, applied, dt⟩).ControlSignal =
      (AntiWindupController.Update ⟨kp, ki, kd, kaw, tdis, tlp, mxo, mno⟩
        ⟨ce, cei, ceI, ced, cs, ucs⟩ ⟨ref, act, ff, dt⟩).ControlSignal ∧
    (TrackingController.Update ⟨kp, ki, kd, kaw, tdis, tlp, mxo, mno⟩
        ⟨ce, cei, ceI, ced, cs, ucs⟩ ⟨ref, act, ff, applied, dt⟩).ControlErrorIntegrand =
      clampMF (f32Add (f32Sub ref act) (f32Mul kaw (f32Sub applied
        ((TrackingController.Update ⟨kp, ki, kd, kaw, tdis, tlp, mxo, mno⟩
          ⟨ce, cei, ceI, ced, cs, ucs⟩
          ⟨ref, act, ff, applied, dt⟩).UnsaturatedControlSignal)))) ∧
    (AntiWindupController.Update ⟨kp, ki, kd, kaw, tdis, tlp, mxo, mno⟩
        ⟨ce, cei, ceI, ced, cs, ucs⟩ ⟨ref, act, ff, dt⟩).ControlErrorIntegrand =
      clampMF (f32Add (f32Sub ref act) (f32Mul kaw (f32Sub
        ((AntiWindupController.Update ⟨kp, ki, kd, kaw, tdis, tlp, mxo, mno⟩
          ⟨ce, cei, ceI, ced, cs, ucs⟩ ⟨ref, act, ff, dt⟩).ControlSignal)
        ((AntiWindupController.Update ⟨kp, ki, kd, kaw, tdis, tlp, mxo, mno⟩
          ⟨ce, cei, ceI, ced, cs, ucs⟩ ⟨ref, act, ff, dt⟩).UnsaturatedControlSignal)))) :=
  ⟨rfl, rfl, rfl, rfl, rfl, rfl, rfl⟩

/-- C7: the basic controller, from all-zero state with gains
`Kp = 2, Ki = 1, Kd = 1`, on one `Update` with `reference = 10`,
`actual = 0` and a 100 ms sampling interval (100000000 ns, converted to
seconds by dividing by 1e9), produces `error = 10`, `derivative = 100`,
`integral = 1`, `signal = 121` in binary32 arithmetic. -/
theorem spec_c7_basic_example :
    Controller.Update
        ⟨f32OfNat 2, f32OfNat 1, f32OfNat 1⟩
        ⟨F32.zero false, F32.zero false, F32.zero false, F32.zero false⟩
        ⟨f32OfNat 10, F32.zero false, 100000000⟩ =
      ⟨f32OfNat 10, f32OfNat 1, f32OfNat 100, f32OfNat 121⟩ := by
  decide

/-- C8: a NaN entering any of the clamp operations (the
`[-MaxFloat32, MaxFloat32]` state clamps, the output saturation clamp and the
PI integral clamp, all built as `max(lo, min(hi, x))`) propagates as NaN
rather than being clamped to a bound, and so a NaN input reaches the stored
state fields of every controller variant untouched. -/
theorem spec_c8_nan_propagation :
    (∀ mn mx : F32, goMax mn (goMin mx F32.nan) = F32.nan) ∧
    (clampMF F32.nan = F32.nan) ∧
    (∀ (cfg : ControllerConfig) (s : ControllerState) (act : F32) (dt : Int),
      Controller.Update cfg s ⟨F32.nan, act, dt⟩ =
        ⟨F32.nan, F32.nan, F32.nan, F32.nan⟩) ∧
    (∀ (cfg : PIControllerConfig) (s : PIControllerState) (act : F32) (dt : Int),
      PIController.Update cfg s ⟨F32.nan, act, dt⟩ = ⟨F32.nan, F32.nan⟩) ∧
    (∀ (cfg : AntiWindupControllerConfig) (s : AntiWindupControllerState)
        (act ff : F32) (dt : Int),
      (AntiWindupController.Update cfg s ⟨F32.nan, act, ff, dt⟩).ControlError =
          F32.nan ∧
      (AntiWindupController.Update cfg s ⟨F32.nan, act, ff, dt⟩).ControlErrorIntegrand =
          F32.nan ∧
      (AntiWindupController.Update cfg s
          ⟨F32.nan, act, ff, dt⟩).ControlErrorDerivative = F32.nan ∧
      (AntiWindupController.Update cfg s ⟨F32.nan, act, ff, dt⟩).ControlSignal =
          F32.nan ∧
      (AntiWindupController.Update cfg s
          ⟨F32.nan, act, ff, dt⟩).UnsaturatedControlSignal = F32.nan) ∧
    (∀ (cfg : TrackingControllerConfig) (s : TrackingControllerState)
        (act ff applied : F32) (dt : Int),
      (TrackingController.Update cfg s ⟨F32.nan, act, ff, applied, dt⟩).ControlError =
          F32.nan ∧
      (TrackingController.Update cfg s
          ⟨F32.nan, act, ff, applied, dt⟩).ControlErrorIntegrand = F32.nan ∧
      (TrackingController.Update cfg s
          ⟨F32.nan, act, ff, applied, dt⟩).ControlErrorDerivative = F32.nan ∧
      (TrackingController.Update cfg s
          ⟨F32.nan, act, ff, applied, dt⟩).ControlSignal = F32.nan ∧
      (TrackingController.Update cfg s
          ⟨F32.nan, act, ff, applied, dt⟩).UnsaturatedControlSignal = F32.nan) := by
  refine ⟨fun mn mx => sat_nan mn mx, clamp_nan, ?_, ?_, ?_, ?_⟩
  · intro cfg s act dt
    simp [Controller.Update, f32Sub_nan_left, f32Div_nan_left, f32Mul_nan_left,
      f32Mul_nan_right, f32Add_nan_left, f32Add_nan_right]
  · intro cfg s act dt
    simp [PIController.Update, f32Sub_nan_left, f32Mul_nan_left, f32Add_nan_right,
      f32Add_nan_left, f32Mul_nan_right, sat_nan]
  · intro cfg s act ff dt
    refine ⟨?_, ?_, ?_, ?_, ?_⟩ <;>
      simp [AntiWindupController.Update, f32Sub_nan_left, f32Mul_nan_left,
        f32Mul_nan_right, f32Add_nan_left, f32Add_nan_right, f32Div_nan_left,
        sat_nan, clamp_nan]
  · intro cfg s act ff applied dt
    refine ⟨?_, ?_, ?_, ?_, ?_⟩ <;>
      simp [TrackingController.Update, f32Sub_nan_left, f32Mul_nan_left,
        f32Mul_nan_right, f32Add_nan_left, f32Add_nan_right, f32Div_nan_left,
        sat_nan, clamp_nan]

/-- C2 counterexample: the claim fails as stated.  First conjunct block: with
`MinOutput = +0`, `MaxOutput = 1` and non-NaN inputs, one anti-windup update
computes `UnsaturatedControlSignal = -0`, which lies within the bounds under
IEEE comparison, yet `ControlSignal` is `+0`, not bit-for-bit equal to it
(Go's `max` prefers `+0` over `-0`).  Second block: with the non-NaN inputs
`reference = actual = +Inf`, the stored `ControlSignal` is NaN and so outside
`[MinOutput, MaxOutput]`. -/
theorem spec_c2_counterexample :
    ((AntiWindupController.Update
        ⟨f32One, f32Neg f32One, f32Neg f32One, F32.zero false, f32One, 1000000000,
          f32One, F32.zero false⟩
        ⟨F32.zero false, F32.zero false, F32.zero false, F32.zero false,
          F32.zero false, F32.zero false⟩
        ⟨F32.zero true, F32.zero false, F32.zero true,
          1000000000⟩).UnsaturatedControlSignal = F32.zero true ∧
      F32.le (F32.zero false) (F32.zero true) = true ∧
      F32.le (F32.zero true) f32One = true ∧
      (AntiWindupController.Update
        ⟨f32One, f32Neg f32One, f32Neg f32One, F32.zero false, f32One, 1000000000,
          f32One, F32.zero false⟩
        ⟨F32.zero false, F32.zero false, F32.zero false, F32.zero false,
          F32.zero false, F32.zero false⟩
        ⟨F32.zero true, F32.zero false, F32.zero true, 1000000000⟩).ControlSignal =
        F32.zero false ∧
      (AntiWindupController.Update
        ⟨f32One, f32Neg f32One, f32Neg f32One, F32.zero false, f32One, 1000000000,
          f32One, F32.zero false⟩
        ⟨F32.zero false, F32.zero false, F32.zero false, F32.zero false,
          F32.zero false, F32.zero false⟩
        ⟨F32.zero true, F32.zero false, F32.zero true, 1000000000⟩).ControlSignal ≠
        F32.zero true) ∧
    ((AntiWindupController.Update
        ⟨f32One, f32Neg f32One, f32Neg f32One, F32.zero false, f32One, 1000000000,
          f32One, F32.zero false⟩
        ⟨F32.zero false, F32.zero false, F32.zero false, F32.zero false,
          F32.zero false, F32.zero false⟩
        ⟨F32.inf false, F32.inf false, F32.zero false, 1000000000⟩).ControlSignal =
        F32.nan ∧
      (F32.inf false).isNan = false ∧
      F32.le (F32.zero false)
        ((AntiWindupController.Update
          ⟨f32One, f32Neg f32One, f32Neg f32One, F32.zero false, f32One, 1000000000,
            f32One, F32.zero false⟩
          ⟨F32.zero false, F32.zero false, F32.zero false, F32.zero false,
            F32.zero false, F32.zero false⟩
          ⟨F32.inf false, F32.inf false, F32.zero false,
            1000000000⟩).ControlSignal) = false) := by
  decide

/-- C2 amended: for the anti-windup and tracking controllers, whenever
`MinOutput ≤ MaxOutput` and the computed `UnsaturatedControlSignal` is not
NaN, the stored `ControlSignal` lies within `[MinOutput, MaxOutput]`; and
whenever `UnsaturatedControlSignal` additionally lies within those bounds,
`ControlSignal` equals it under IEEE comparison (`==`, which identifies `-0`
and `+0`). -/
theorem spec_c2_signal_in_bounds
    (cfg : AntiWindupControllerConfig) (s : AntiWindupControllerState)
    (input : AntiWindupControllerInput)
    (cfgT : TrackingControllerConfig) (sT : TrackingControllerState)
    (inputT : TrackingControllerInput)
    (hle : F32.le cfg.MinOutput cfg.MaxOutput = true)
    (hu : (AntiWindupController.Update cfg s
      input).UnsaturatedControlSignal.isNan = false)
    (hleT : F32.le cfgT.MinOutput cfgT.MaxOutput = true)
    (huT : (TrackingController.Update cfgT sT
      inputT).UnsaturatedControlSignal.isNan = false) :
    (F32.le cfg.MinOutput
        (AntiWindupController.Update cfg s input).ControlSignal = true ∧
      F32.le (AntiWindupController.Update cfg s input).ControlSignal
        cfg.MaxOutput = true ∧
      (F32.le cfg.MinOutput
          (AntiWindupController.Update cfg s input).UnsaturatedControlSignal = true →
        F32.le (AntiWindupController.Update cfg s
          input).UnsaturatedControlSignal cfg.MaxOutput = true →
        F32.beq (AntiWindupController.Update cfg s input).ControlSignal
          (AntiWindupController.Update cfg s
            input).UnsaturatedControlSignal = true)) ∧
    (F32.le cfgT.MinOutput
        (TrackingController.Update cfgT sT inputT).ControlSignal = true ∧
      F32.le (TrackingController.Update cfgT sT inputT).ControlSignal
        cfgT.MaxOutput = true ∧
      (F32.le cfgT.MinOutput
          (TrackingController.Update cfgT sT inputT).UnsaturatedControlSignal = true →
        F32.le (TrackingController.Update cfgT sT
          inputT).UnsaturatedControlSignal cfgT.MaxOutput = true →
        F32.beq (TrackingController.Update cfgT sT inputT).ControlSignal
          (TrackingController.Update cfgT sT
            inputT).UnsaturatedControlSignal = true)) := by
  have h1 : (AntiWindupController.Update cfg s input).ControlSignal =
      goMax cfg.MinOutput (goMin cfg.MaxOutput
        ((AntiWindupController.Update cfg s input).UnsaturatedControlSignal)) := rfl
  have h2 : (TrackingController.Update cfgT sT inputT).ControlSignal =
      goMax cfgT.MinOutput (goMin cfgT.MaxOutput
        ((TrackingController.Update cfgT sT inputT).UnsaturatedControlSignal)) := rfl
  rw [h1, h2]
  exact ⟨⟨sat_ge_lo _ _ _ hle hu, sat_le_hi _ _ _ hle hu,
      fun hlo hhi => sat_beq _ _ _ hlo hhi⟩,
    ⟨sat_ge_lo _ _ _ hleT huT, sat_le_hi _ _ _ hleT huT,
      fun hlo hhi => sat_beq _ _ _ hlo hhi⟩⟩

/-- Witness for the amended C2 at a concrete input (all-zero config, state
and inputs for both controllers). -/
theorem spec_c2_signal_in_bounds_witness :
    F32.le (F32.zero false) (F32.zero false) = true ∧
    (AntiWindupController.Update
      ⟨F32.zero false, F32.zero false, F32.zero false, F32.zero false,
        F32.zero false, 1000000000, F32.zero false, F32.zero false⟩
      ⟨F32.zero false, F32.zero false, F32.zero false, F32.zero false,
        F32.zero false, F32.zero false⟩
      ⟨F32.zero false, F32.zero false, F32.zero false,
        0⟩).UnsaturatedControlSignal.isNan = false ∧
    F32.le (F32.zero false)
      (AntiWindupController.Update
        ⟨F32.zero false, F32.zero false, F32.zero false, F32.zero false,
          F32.zero false, 1000000000, F32.zero false, F32.zero false⟩
        ⟨F32.zero false, F32.zero false, F32.zero false, F32.zero false,
          F32.zero false, F32.zero false⟩
        ⟨F32.zero false, F32.zero false, F32.zero false, 0⟩).ControlSignal = true :=
  ⟨by decide, by decide,
    (spec_c2_signal_in_bounds
      ⟨F32.zero false, F32.zero false, F32.zero false, F32.zero false,
        F32.zero false, 1000000000, F32.zero false, F32.zero false⟩
      ⟨F32.zero false, F32.zero false, F32.zero false, F32.zero false,
        F32.zero false, F32.zero false⟩
      ⟨F32.zero false, F32.zero false, F32.zero false, 0⟩
      ⟨F32.zero false, F32.zero false, F32.zero false, F32.zero false,
        F32.zero false, 1000000000, F32.zero false, F32.zero false⟩
      ⟨F32.zero false, F32.zero false, F32.zero false, F32.zero false,
        F32.zero false, F32.zero false⟩
      ⟨F32.zero false, F32.zero false, F32.zero false, F32.zero false, 0⟩
      (by decide) (by decide) (by decide) (by decide)).1.1⟩

/-- C3 counterexample: with the finite, non-NaN inputs
`reference = MaxFloat32`, `actual = -MaxFloat32` and sampling interval 0, the
error overflows to `+Inf`, `Inf * 0 = NaN` enters the accumulation, and the
stored PI integral is NaN — outside `[MinIntegralError, MaxIntegralError] =
[-1, 1]`. -/
theorem spec_c3_counterexample :
    maxFloat32.finite = true ∧
    (f32Neg maxFloat32).finite = true ∧
    (PIController.Update ⟨f32One, f32One, f32One, f32Neg f32One, F32.zero false,
        F32.zero false⟩ ⟨F32.zero false, F32.zero false⟩
        ⟨maxFloat32, f32Neg maxFloat32, 0⟩).ControlErrorIntegral = F32.nan ∧
    F32.le (f32Neg f32One)
      ((PIController.Update ⟨f32One, f32One, f32One, f32Neg f32One, F32.zero false,
        F32.zero false⟩ ⟨F32.zero false, F32.zero false⟩
        ⟨maxFloat32, f32Neg maxFloat32, 0⟩).ControlErrorIntegral) = false ∧
    F32.le ((PIController.Update ⟨f32One, f32One, f32One, f32Neg f32One,
        F32.zero false, F32.zero false⟩ ⟨F32.zero false, F32.zero false⟩
        ⟨maxFloat32, f32Neg maxFloat32, 0⟩).ControlErrorIntegral) f32One = false := by
  decide

/-- C3 amended: for every state (hence after any number of `Update` calls),
provided `MinIntegralError ≤ MaxIntegralError` and the accumulated value
`integral + error*dt` of the current step is not NaN, the PI controller's
stored `ControlErrorIntegral` stays in
`[MinIntegralError, MaxIntegralError]`. -/
theorem spec_c3_pi_integral_in_bounds (cfg : PIControllerConfig)
    (s : PIControllerState) (input : PIControllerInput)
    (hle : F32.le cfg.MinIntegralError cfg.MaxIntegralError = true)
    (hsum : (f32Add s.ControlErrorIntegral
      (f32Mul (f32Sub input.ReferenceSignal input.ActualSignal)
        (seconds input.SamplingInterval))).isNan = false) :
    F32.le cfg.MinIntegralError
        (PIController.Update cfg s input).ControlErrorIntegral = true ∧
      F32.le (PIController.Update cfg s input).ControlErrorIntegral
        cfg.MaxIntegralError = true := by
  have h : (PIController.Update cfg s input).ControlErrorIntegral =
      goMax cfg.MinIntegralError (goMin cfg.MaxIntegralError
        (f32Add s.ControlErrorIntegral
          (f32Mul (f32Sub input.ReferenceSignal input.ActualSignal)
            (seconds input.SamplingInterval)))) := rfl
  rw [h]
  exact ⟨sat_ge_lo _ _ _ hle hsum, sat_le_hi _ _ _ hle hsum⟩

/-- Witness for the amended C3 at a concrete input. -/
theorem spec_c3_pi_integral_in_bounds_witness :
    F32.le (F32.zero false) (F32.zero false) = true ∧
    F32.le (F32.zero false)
      ((PIController.Update
        ⟨F32.zero false, F32.zero false, F32.zero false, F32.zero false,
          F32.zero false, F32.zero false⟩
        ⟨F32.zero false, F32.zero false⟩
        ⟨F32.zero false, F32.zero false, 0⟩).ControlErrorIntegral) = true :=
  ⟨by decide,
    (spec_c3_pi_integral_in_bounds
      ⟨F32.zero false, F32.zero false, F32.zero false, F32.zero false,
        F32.zero false, F32.zero false⟩
      ⟨F32.zero false, F32.zero false⟩
      ⟨F32.zero false, F32.zero false, 0⟩ (by decide) (by decide)).1⟩

theorem aw_step_notInf (cfg : AntiWindupControllerConfig)
    (s : AntiWindupControllerState) (input : AntiWindupControllerInput)
    (hmn : cfg.MinOutput.isInf = false) (hmx : cfg.MaxOutput.isInf = false) :
    (AntiWindupController.Update cfg s input).ControlError.isInf = false ∧
    (AntiWindupController.Update cfg s input).ControlErrorIntegrand.isInf = false ∧
    (AntiWindupController.Update cfg s input).ControlErrorIntegral.isInf = false ∧
    (AntiWindupController.Update cfg s input).ControlErrorDerivative.isInf = false ∧
    (AntiWindupController.Update cfg s input).ControlSignal.isInf = false :=
  ⟨clamp_notInf _, clamp_notInf _, clamp_notInf _, clamp_notInf _,
    sat_notInf _ _ _ hmn hmx⟩

theorem tr_step_notInf (cfg : TrackingControllerConfig)
    (s : TrackingControllerState) (input : TrackingControllerInput)
    (hmn : cfg.MinOutput.isInf = false) (hmx : cfg.MaxOutput.isInf = false) :
    (TrackingController.Update cfg s input).ControlError.isInf = false ∧
    (TrackingController.Update cfg s input).ControlErrorIntegrand.isInf = false ∧
    (TrackingController.Update cfg s input).ControlErrorIntegral.isInf = false ∧
    (TrackingController.Update cfg s input).ControlErrorDerivative.isInf = false ∧
    (TrackingController.Update cfg s input).ControlSignal.isInf = false :=
  ⟨clamp_notInf _, clamp_notInf _, clamp_notInf _, clamp_notInf _,
    sat_notInf _ _ _ hmn hmx⟩

theorem aw_seq_notInf (cfg : AntiWindupControllerConfig)
    (hmn : cfg.MinOutput.isInf = false) (hmx : cfg.MaxOutput.isInf = false) :
    ∀ (inputs : List AntiWindupControllerInput) (s : AntiWindupControllerState),
      inputs ≠ [] →
      (AntiWindupController.UpdateSeq cfg s inputs).ControlError.isInf = false ∧
      (AntiWindupController.UpdateSeq cfg s inputs).ControlErrorIntegrand.isInf = false ∧
      (AntiWindupController.UpdateSeq cfg s inputs).ControlErrorIntegral.isInf = false ∧
      (AntiWindupController.UpdateSeq cfg s inputs).ControlErrorDerivative.isInf = false ∧
      (AntiWindupController.UpdateSeq cfg s inputs).ControlSignal.isInf = false := by
  intro inputs
  induction inputs with
  | nil => intro s h; exact absurd rfl h
  | cons x xs ih =>
    intro s _
    cases xs with
    | nil => exact aw_step_notInf cfg s x hmn hmx
    | cons y ys =>
      have h2 : AntiWindupController.UpdateSeq cfg s (x :: y :: ys) =
          AntiWindupController.UpdateSeq cfg
            (AntiWindupController.Update cfg s x) (y :: ys) := rfl
      rw [h2]
      exact ih (AntiWindupController.Update cfg s x) (by simp)

theorem tr_seq_notInf (cfg : TrackingControllerConfig)
    (hmn : cfg.MinOutput.isInf = false) (hmx : cfg.MaxOutput.isInf = false) :
    ∀ (inputs : List TrackingControllerInput) (s : TrackingControllerState),
      inputs ≠ [] →
      (TrackingController.UpdateSeq cfg s inputs).ControlError.isInf = false ∧
      (TrackingController.UpdateSeq cfg s inputs).ControlErrorIntegrand.isInf = false ∧
      (TrackingController.UpdateSeq cfg s inputs).ControlErrorIntegral.isInf = false ∧
      (TrackingController.UpdateSeq cfg s inputs).ControlErrorDerivative.isInf = false ∧
      (TrackingController.UpdateSeq cfg s inputs).ControlSignal.isInf = false := by
  intro inputs
  induction inputs with
  | nil => intro s h; exact absurd rfl h
  | cons x xs ih =>
    intro s _
    cases xs with
    | nil => exact tr_step_notInf cfg s x hmn hmx
    | cons y ys =>
      have h2 : TrackingController.UpdateSeq cfg s (x :: y :: ys) =
          TrackingController.UpdateSeq cfg
            (TrackingController.Update cfg s x) (y :: ys) := rfl
      rw [h2]
      exact ih (TrackingController.Update cfg s x) (by simp)

/-- C1 counterexample: with the all-finite, non-NaN config
`Kp = MaxFloat32` (rest zero, 1 s low-pass constant) and the finite non-NaN
inputs `reference = MaxFloat32, actual = 0, dt = 1 s`, a single anti-windup
update stores `UnsaturatedControlSignal = +Inf`: not every state field stays
finite. -/
theorem spec_c1_counterexample :
    maxFloat32.finite = true ∧
    (AntiWindupController.Update
      ⟨maxFloat32, F32.zero false, F32.zero false, F32.zero false, f32One,
        1000000000, f32One, f32Neg f32One⟩
      ⟨F32.zero false, F32.zero false, F32.zero false, F32.zero false,
        F32.zero false, F32.zero false⟩
      ⟨maxFloat32, F32.zero false, F32.zero false,
        1000000000⟩).UnsaturatedControlSignal = F32.inf false ∧
    (AntiWindupController.Update
      ⟨maxFloat32, F32.zero false, F32.zero false, F32.zero false, f32One,
        1000000000, f32One, f32Neg f32One⟩
      ⟨F32.zero false, F32.zero false, F32.zero false, F32.zero false,
        F32.zero false, F32.zero false⟩
      ⟨maxFloat32, F32.zero false, F32.zero false,
        1000000000⟩).UnsaturatedControlSignal.isInf = true := by
  decide

/-- C1 amended: for the anti-windup and tracking controllers with
non-infinite `MinOutput`/`MaxOutput`, after any nonempty finite sequence of
`Update` calls, the five fields `ControlError`, `ControlErrorIntegrand`,
`ControlErrorIntegral`, `ControlErrorDerivative` and `ControlSignal` are
never `+Inf`/`-Inf` (by construction of the clamping steps); the unclamped
`UnsaturatedControlSignal` is exempt. -/
theorem spec_c1_no_infinities (cfg : AntiWindupControllerConfig)
    (cfgT : TrackingControllerConfig)
    (inputs : List AntiWindupControllerInput)
    (inputsT : List TrackingControllerInput)
    (s : AntiWindupControllerState) (sT : TrackingControllerState)
    (h : inputs ≠ []) (hT : inputsT ≠ [])
    (hmn : cfg.MinOutput.isInf = false) (hmx : cfg.MaxOutput.isInf = false)
    (hmnT : cfgT.MinOutput.isInf = false) (hmxT : cfgT.MaxOutput.isInf = false) :
    ((AntiWindupController.UpdateSeq cfg s inputs).ControlError.isInf = false ∧
      (AntiWindupController.UpdateSeq cfg s inputs).ControlErrorIntegrand.isInf = false ∧
      (AntiWindupController.UpdateSeq cfg s inputs).ControlErrorIntegral.isInf = false ∧
      (AntiWindupController.UpdateSeq cfg s inputs).ControlErrorDerivative.isInf = false ∧
      (AntiWindupController.UpdateSeq cfg s inputs).ControlSignal.isInf = false) ∧
    ((TrackingController.UpdateSeq cfgT sT inputsT).ControlError.isInf = false ∧
      (TrackingController.UpdateSeq cfgT sT inputsT).ControlErrorIntegrand.isInf = false ∧
      (TrackingController.UpdateSeq cfgT sT inputsT).ControlErrorIntegral.isInf = false ∧
      (TrackingController.UpdateSeq cfgT sT inputsT).ControlErrorDerivative.isInf = false ∧
      (TrackingController.UpdateSeq cfgT sT inputsT).ControlSignal.isInf = false) :=
  ⟨aw_seq_notInf cfg hmn hmx inputs s h, tr_seq_notInf cfgT hmnT hmxT inputsT sT hT⟩

/-- Witness for the amended C1 at a concrete input (one all-zero update for
each controller). -/
theorem spec_c1_no_infinities_witness :
    ([(⟨F32.zero false, F32.zero false, F32.zero false, 0⟩ :
        AntiWindupControllerInput)] ≠ []) ∧
    (AntiWindupController.UpdateSeq
      ⟨F32.zero false, F32.zero false, F32.zero false, F32.zero false,
        F32.zero false, 1000000000, F32.zero false, F32.zero false⟩
      ⟨F32.zero false, F32.zero false, F32.zero false, F32.zero false,
        F32.zero false, F32.zero false⟩
      [⟨F32.zero false, F32.zero false, F32.zero false, 0⟩]).ControlError.isInf =
      false :=
  ⟨by decide,
    (spec_c1_no_infinities
      ⟨F32.zero false, F32.zero false, F32.zero false, F32.zero false,
        F32.zero false, 1000000000, F32.zero false, F32.zero false⟩
      ⟨F32.zero false, F32.zero false, F32.zero false, F32.zero false,
        F32.zero false, 1000000000, F32.zero false, F32.zero false⟩
      [⟨F32.zero false, F32.zero false, F32.zero false, 0⟩]
      [⟨F32.zero false, F32.zero false, F32.zero false, F32.zero false, 0⟩]
      ⟨F32.zero false, F32.zero false, F32.zero false, F32.zero false,
        F32.zero false, F32.zero false⟩
      ⟨F32.zero false, F32.zero false, F32.zero false, F32.zero false,
        F32.zero false, F32.zero false⟩
      (by decide) (by decide) (by decide) (by decide) (by decide)
      (by decide)).1.1⟩

theorem natLog2F_bounds :
    ∀ (f n : Nat), 0 < n → n ≤ f →
      2 ^ natLog2F f n ≤ n ∧ n < 2 ^ (natLog2F f n + 1) := by
  intro f
  induction f with
  | zero => intro n h1 h2; omega
  | succ f ih =>
    intro n h1 h2
    simp only [natLog2F]
    split
    · rename_i hle
      have : n = 1 := by omega
      subst this
      simp
    · rename_i hgt
      have h3 : 2 ≤ n := by omega
      obtain ⟨ih1, ih2⟩ := ih (n / 2) (by omega) (by omega)
      have hp1 : 2 ^ (natLog2F f (n / 2) + 1) = 2 * 2 ^ natLog2F f (n / 2) := by
        rw [pow_succ]; ring
      have hp2 : 2 ^ (natLog2F f (n / 2) + 1 + 1) =
          2 * 2 ^ (natLog2F f (n / 2) + 1) := by
        rw [pow_succ]; ring
      omega

theorem natLog2_bounds (n : Nat) (h : 0 < n) :
    2 ^ natLog2 n ≤ n ∧ n < 2 ^ (natLog2 n + 1) :=
  natLog2F_bounds n n h (le_refl n)

theorem zpow_mul_toNat (k : Int) :
    (2 : ℚ) ^ k * (2 : ℚ) ^ ((-k).toNat) = (2 : ℚ) ^ (k.toNat) := by
  rw [show ((2 : ℚ) ^ ((-k).toNat)) = (2 : ℚ) ^ (((-k).toNat : Int)) from
      (zpow_natCast 2 (-k).toNat).symm,
    show ((2 : ℚ) ^ (k.toNat)) = (2 : ℚ) ^ ((k.toNat : Int)) from
      (zpow_natCast 2 k.toNat).symm,
    ← zpow_add₀ (two_ne_zero)]
  congr 1
  omega

theorem pow_le_div_iff_cross (a b : Nat) (hb : 0 < b) (k : Int) :
    ((2 : ℚ) ^ k ≤ (a : ℚ) / (b : ℚ)) ↔
      b * 2 ^ k.toNat ≤ a * 2 ^ (-k).toNat := by
  have hb' : (0 : ℚ) < (b : ℚ) := by exact_mod_cast hb
  rw [le_div_iff₀ hb']
  have hp : (0 : ℚ) < (2 : ℚ) ^ ((-k).toNat) := by positivity
  rw [← mul_le_mul_right hp]
  have hL : (2 : ℚ) ^ k * (b : ℚ) * (2 : ℚ) ^ ((-k).toNat) =
      ((b * 2 ^ k.toNat : Nat) : ℚ) := by
    push_cast
    rw [mul_right_comm, zpow_mul_toNat]
    ring
  have hR : (a : ℚ) * (2 : ℚ) ^ ((-k).toNat) = ((a * 2 ^ (-k).toNat : Nat) : ℚ) := by
    push_cast
    ring
  rw [hL, hR]
  exact_mod_cast Iff.rfl

theorem div_lt_pow_iff_cross (a b : Nat) (hb : 0 < b) (k : Int) :
    ((a : ℚ) / (b : ℚ) < (2 : ℚ) ^ k) ↔
      a * 2 ^ (-k).toNat < b * 2 ^ k.toNat := by
  rw [← not_le, ← not_le, pow_le_div_iff_cross a b hb k]

theorem findL_correct (a b : Nat) (ha : 0 < a) (hb : 0 < b) :
    (2 : ℚ) ^ (findL a b) ≤ (a : ℚ) / (b : ℚ) ∧
      (a : ℚ) / (b : ℚ) < (2 : ℚ) ^ (findL a b + 1) := by
  obtain ⟨ha1, ha2⟩ := natLog2_bounds a ha
  obtain ⟨hb1, hb2⟩ := natLog2_bounds b hb
  have hb' : (0 : ℚ) < (b : ℚ) := by exact_mod_cast hb
  have hq_a1 : ((2 : ℚ) ^ ((natLog2 a : Int))) ≤ (a : ℚ) := by
    rw [zpow_natCast]
    exact_mod_cast ha1
  have hq_a2 : (a : ℚ) < (2 : ℚ) ^ ((natLog2 a : Int) + 1) := by
    rw [show ((natLog2 a : Int) + 1) = ((natLog2 a + 1 : Nat) : Int) by push_cast; ring,
      zpow_natCast]
    exact_mod_cast ha2
  have hq_b1 : ((2 : ℚ) ^ ((natLog2 b : Int))) ≤ (b : ℚ) := by
    rw [zpow_natCast]
    exact_mod_cast hb1
  have hq_b2 : (b : ℚ) < (2 : ℚ) ^ ((natLog2 b : Int) + 1) := by
    rw [show ((natLog2 b : Int) + 1) = ((natLog2 b + 1 : Nat) : Int) by push_cast; ring,
      zpow_natCast]
    exact_mod_cast hb2
  simp only [findL]
  split
  · rename_i hcond
    constructor
    · exact (pow_le_div_iff_cross a b hb _).mpr hcond
    · rw [div_lt_iff₀ hb']
      calc (a : ℚ) < (2 : ℚ) ^ ((natLog2 a : Int) + 1) := hq_a2
        _ = (2 : ℚ) ^ ((natLog2 a : Int) - (natLog2 b : Int) + 1) *
            (2 : ℚ) ^ ((natLog2 b : Int)) := by
            rw [← zpow_add₀ (two_ne_zero)]
            congr 1
            ring
        _ ≤ (2 : ℚ) ^ ((natLog2 a : Int) - (natLog2 b : Int) + 1) * (b : ℚ) := by
            exact mul_le_mul_of_nonneg_left hq_b1 (le_of_lt (by positivity))
  · rename_i hcond
    push_neg at hcond
    constructor
    · rw [le_div_iff₀ hb']
      have hstep : (2 : ℚ) ^ ((natLog2 a : Int) - (natLog2 b : Int) - 1) * (b : ℚ) <
          (2 : ℚ) ^ ((natLog2 a : Int)) := by
        calc (2 : ℚ) ^ ((natLog2 a : Int) - (natLog2 b : Int) - 1) * (b : ℚ) <
            (2 : ℚ) ^ ((natLog2 a : Int) - (natLog2 b : Int) - 1) *
              (2 : ℚ) ^ ((natLog2 b : Int) + 1) := by
              exact mul_lt_mul_of_pos_left hq_b2 (by positivity)
          _ = (2 : ℚ) ^ ((natLog2 a : Int)) := by
              rw [← zpow_add₀ (two_ne_zero)]
              congr 1
              ring
      exact le_of_lt (lt_of_lt_of_le hstep hq_a1)
    · have hnotle : ¬ ((2 : ℚ) ^ ((natLog2 a : Int) - (natLog2 b : Int)) ≤
          (a : ℚ) / (b : ℚ)) := by
        rw [pow_le_div_iff_cross a b hb]
        omega
      push_neg at hnotle
      calc (a : ℚ) / (b : ℚ) < (2 : ℚ) ^ ((natLog2 a : Int) - (natLog2 b : Int)) :=
          hnotle
        _ = (2 : ℚ) ^ ((natLog2 a : Int) - (natLog2 b : Int) - 1 + 1) := by
          congr 1
          ring

theorem roundQ_ge_div (A B : Nat) : A / B ≤ roundQ A B := by
  unfold roundQ
  split_ifs <;> omega

theorem roundFin_sign (s : Bool) (eT : Int) (q : Nat) :
    roundFin s eT q = F32.zero s ∨ roundFin s eT q = F32.inf s ∨
      ∃ e2 m2, roundFin s eT q = F32.num s e2 m2 := by
  simp only [roundFin]
  split_ifs <;> simp

theorem roundRat_sign (s : Bool) (a b : Nat) :
    roundRat s a b = F32.zero s ∨ roundRat s a b = F32.inf s ∨
      ∃ e2 m2, roundRat s a b = F32.num s e2 m2 := by
  unfold roundRat
  split_ifs
  · simp
  · exact roundFin_sign s _ _

theorem roundDyadic_sign (s : Bool) (m : Nat) (e : Int) :
    roundDyadic s m e = F32.zero s ∨ roundDyadic s m e = F32.inf s ∨
      ∃ e2 m2, roundDyadic s m e = F32.num s e2 m2 := by
  unfold roundDyadic
  split_ifs <;> exact roundRat_sign s _ _

theorem one_le_val_num (e : Int) (m : Nat) (he : -23 ≤ e) (hm : 2 ^ 23 ≤ m) :
    F32.le f32One (F32.num false e m) = true := by
  rw [le_fin f32One (F32.num false e m) rfl rfl]
  simp only [decide_eq_true_eq, F32.val, f32One, if_false, Bool.false_eq_true]
  have h1 : (8388608 : ℚ) * (2 : ℚ) ^ (-23 : Int) = 1 := by
    rw [show (8388608 : ℚ) = (2 : ℚ) ^ (23 : Int) by norm_num, ← zpow_add₀ two_ne_zero]
    norm_num
  have h2 : (8388608 : ℚ) ≤ (m : ℚ) := by
    have : (8388608 : Nat) ≤ m := hm
    exact_mod_cast this
  have h3 : (2 : ℚ) ^ (-23 : Int) ≤ (2 : ℚ) ^ e := zpow_le_zpow_right₀ one_le_two he
  have hchain : (8388608 : ℚ) * (2 : ℚ) ^ (-23 : Int) ≤ (m : ℚ) * (2 : ℚ) ^ e :=
    calc (8388608 : ℚ) * (2 : ℚ) ^ (-23 : Int) ≤ (m : ℚ) * (2 : ℚ) ^ (-23 : Int) :=
        mul_le_mul_of_nonneg_right h2 (le_of_lt (by positivity))
      _ ≤ (m : ℚ) * (2 : ℚ) ^ e := mul_le_mul_of_nonneg_left h3 (by positivity)
  norm_num
  linarith

theorem roundFin_ge_one (eT : Int) (q : Nat) (heT : -23 ≤ eT) (hq : 2 ^ 23 ≤ q) :
    F32.le f32One (roundFin false eT q) = true ∧
    (roundFin false eT q = F32.inf false ∨
      ∃ e2 m2, roundFin false eT q = F32.num false e2 m2 ∧ 0 < m2) := by
  simp only [roundFin]
  split_ifs with hcarry hz1 hinf1 hz2 hinf2
  · omega
  · exact ⟨rfl, Or.inl rfl⟩
  · constructor
    · exact one_le_val_num (eT + 1) (q / 2) (by omega) (by omega)
    · exact Or.inr ⟨eT + 1, q / 2, rfl, by omega⟩
  · omega
  · exact ⟨rfl, Or.inl rfl⟩
  · constructor
    · exact one_le_val_num eT q (by omega) (by omega)
    · exact Or.inr ⟨eT, q, rfl, by omega⟩

theorem roundRat_ge_one (a b : Nat) (hb : 0 < b) (hba : b ≤ a) :
    F32.le f32One (roundRat false a b) = true ∧
    (roundRat false a b = F32.inf false ∨
      ∃ e2 m2, roundRat false a b = F32.num false e2 m2 ∧ 0 < m2) := by
  have ha : 0 < a := lt_of_lt_of_le hb hba
  have hb' : (0 : ℚ) < (b : ℚ) := by exact_mod_cast hb
  obtain ⟨hf1, hf2⟩ := findL_correct a b ha hb
  have hr1 : (1 : ℚ) ≤ (a : ℚ) / (b : ℚ) := by
    rw [le_div_iff₀ hb']
    have : (b : ℚ) ≤ (a : ℚ) := by exact_mod_cast hba
    linarith
  have hL0 : 0 ≤ findL a b := by
    by_contra h
    push_neg at h
    have h2 : (2 : ℚ) ^ (findL a b + 1) ≤ (2 : ℚ) ^ (0 : Int) :=
      zpow_le_zpow_right₀ one_le_two (by omega)
    rw [zpow_zero] at h2
    linarith
  have hsc : scaleExp a b = findL a b - 23 := by
    unfold scaleExp
    exact max_eq_left (by omega)
  have hcrossL : b * 2 ^ (findL a b).toNat ≤ a * 2 ^ ((-(findL a b)).toNat) :=
    (pow_le_div_iff_cross a b hb (findL a b)).mp hf1
  have hcross : 2 ^ 23 * (b * 2 ^ (scaleExp a b).toNat) ≤
      a * 2 ^ ((-(scaleExp a b)).toNat) := by
    rw [hsc]
    rcases le_or_lt 23 (findL a b) with hc | hc
    · have e2 : (-(findL a b - 23)).toNat = 0 := by omega
      have e3 : (-(findL a b)).toNat = 0 := by omega
      rw [e2, pow_zero, mul_one]
      rw [e3, pow_zero, mul_one] at hcrossL
      have e5 : 2 ^ ((findL a b).toNat) = 2 ^ 23 * 2 ^ ((findL a b - 23).toNat) := by
        rw [← pow_add]
        congr 1
        omega
      calc 2 ^ 23 * (b * 2 ^ ((findL a b - 23).toNat)) =
          b * 2 ^ ((findL a b).toNat) := by rw [e5]; ring
        _ ≤ a := hcrossL
    · have e1 : (findL a b - 23).toNat = 0 := by omega
      have e3 : (-(findL a b)).toNat = 0 := by omega
      rw [e1, pow_zero, mul_one]
      rw [e3, pow_zero, mul_one] at hcrossL
      have e6 : (-(findL a b - 23)).toNat = 23 - (findL a b).toNat := by omega
      rw [e6]
      have e7 : (2 : Nat) ^ 23 = 2 ^ ((findL a b).toNat) * 2 ^ (23 - (findL a b).toNat) := by
        rw [← pow_add]
        congr 1
        omega
      have e8 : 2 ^ 23 * b =
          (b * 2 ^ ((findL a b).toNat)) * 2 ^ (23 - (findL a b).toNat) := by
        rw [e7]
        ring
      rw [e8]
      exact mul_le_mul_right' hcrossL _
  have hB0 : 0 < b * 2 ^ (scaleExp a b).toNat := by positivity
  have hn : 2 ^ 23 ≤ (a * 2 ^ ((-(scaleExp a b)).toNat)) /
      (b * 2 ^ (scaleExp a b).toNat) :=
    (Nat.le_div_iff_mul_le hB0).mpr hcross
  have hq : 2 ^ 23 ≤ roundQ (a * 2 ^ ((-(scaleExp a b)).toNat))
      (b * 2 ^ (scaleExp a b).toNat) :=
    le_trans hn (roundQ_ge_div _ _)
  unfold roundRat
  rw [if_neg (by omega : ¬ a = 0)]
  have := roundFin_ge_one (scaleExp a b)
    (roundQ (a * 2 ^ ((-(scaleExp a b)).toNat)) (b * 2 ^ (scaleExp a b).toNat))
    (by rw [hsc]; omega) hq
  exact this

theorem f32Div_ge_one (x : F32) (et : Int) (mt : Nat) (hmt : 0 < mt)
    (h : F32.le (F32.num false et mt) x = true) :
    F32.le f32One (f32Div x (F32.num false et mt)) = true ∧
    (f32Div x (F32.num false et mt) = F32.inf false ∨
      ∃ e2 m2, f32Div x (F32.num false et mt) = F32.num false e2 m2 ∧ 0 < m2) := by
  cases x with
  | nan => simp [F32.le] at h
  | inf s =>
    have hs : s = false := by
      cases s
      · rfl
      · simp [F32.le] at h
    subst hs
    exact ⟨rfl, Or.inl rfl⟩
  | zero s =>
    exfalso
    rw [le_fin (F32.num false et mt) (F32.zero s) rfl rfl] at h
    simp only [decide_eq_true_eq, F32.val] at h
    have hpos : (0 : ℚ) < (mt : ℚ) * (2 : ℚ) ^ et := by
      have : (0 : ℚ) < (mt : ℚ) := by exact_mod_cast hmt
      positivity
    norm_num at h
    linarith
  | num sx ex mx =>
    cases sx with
    | true =>
      exfalso
      rw [le_fin (F32.num false et mt) (F32.num true ex mx) rfl rfl] at h
      simp only [decide_eq_true_eq, F32.val] at h
      have hpos : (0 : ℚ) < (mt : ℚ) * (2 : ℚ) ^ et := by
        have : (0 : ℚ) < (mt : ℚ) := by exact_mod_cast hmt
        positivity
      have hneg : (0 : ℚ) ≤ (mx : ℚ) * (2 : ℚ) ^ ex := by positivity
      norm_num at h
      linarith
    | false =>
      have hdiv : f32Div (F32.num false ex mx) (F32.num false et mt) =
          roundRat false (mx * 2 ^ (ex - et).toNat) (mt * 2 ^ (et - ex).toNat) := rfl
      rw [hdiv]
      apply roundRat_ge_one
      · positivity
      · simp only [F32.le, F32.fexp, finInt, decide_eq_true_eq] at h
        norm_num at h
        have h1 : (et - min et ex).toNat = (et - ex).toNat := by omega
        have h2 : (ex - min et ex).toNat = (ex - et).toNat := by omega
        rw [h1, h2] at h
        exact_mod_cast h

theorem one_sub_nonpos (x : F32) (h1 : F32.le f32One x = true)
    (hsh : x = F32.inf false ∨ ∃ e m, x = F32.num false e m ∧ 0 < m) :
    f32Sub f32One x = F32.zero false ∨ f32Sub f32One x = F32.zero true ∨
      f32Sub f32One x = F32.inf true ∨
      ∃ e2 m2, f32Sub f32One x = F32.num true e2 m2 := by
  rcases hsh with h | ⟨e, m, hx, hm⟩
  · subst h
    exact Or.inr (Or.inr (Or.inl rfl))
  · subst hx
    have hadd : f32Sub f32One (F32.num false e m) =
        (if (8388608 : Int) * 2 ^ (((-23 : Int) - min (-23 : Int) e).toNat) +
            (-(m : Int)) * 2 ^ ((e - min (-23 : Int) e).toNat) = 0 then F32.zero false
          else roundDyadic
            (decide ((8388608 : Int) * 2 ^ (((-23 : Int) - min (-23 : Int) e).toNat) +
              (-(m : Int)) * 2 ^ ((e - min (-23 : Int) e).toNat) < 0))
            ((8388608 : Int) * 2 ^ (((-23 : Int) - min (-23 : Int) e).toNat) +
              (-(m : Int)) * 2 ^ ((e - min (-23 : Int) e).toNat)).natAbs
            (min (-23 : Int) e)) := rfl
    rw [hadd]
    simp only [F32.le, F32.fexp, finInt, decide_eq_true_eq, f32One,
      Bool.false_eq_true, if_false] at h1
    norm_num at h1
    have hflip : (-(m : Int)) * 2 ^ ((e - min (-23 : Int) e).toNat) =
        -((m : Int) * 2 ^ ((e - min (-23 : Int) e).toNat)) := neg_mul _ _
    have hsum_le : (8388608 : Int) * 2 ^ (((-23 : Int) - min (-23 : Int) e).toNat) +
        (-(m : Int)) * 2 ^ ((e - min (-23 : Int) e).toNat) ≤ 0 := by
      rw [hflip]
      omega
    rcases eq_or_lt_of_le hsum_le with hz | hlt
    · rw [if_pos hz]
      exact Or.inl rfl
    · rw [if_neg (by omega)]
      rw [show decide ((8388608 : Int) * 2 ^ (((-23 : Int) - min (-23 : Int) e).toNat) +
          (-(m : Int)) * 2 ^ ((e - min (-23 : Int) e).toNat) < 0) = true from
        decide_eq_true hlt]
      rcases roundDyadic_sign true
          ((8388608 : Int) * 2 ^ (((-23 : Int) - min (-23 : Int) e).toNat) +
            (-(m : Int)) * 2 ^ ((e - min (-23 : Int) e).toNat)).natAbs
          (min (-23 : Int) e) with h | h | ⟨e2, m2, h⟩
      · exact Or.inr (Or.inl h)
      · exact Or.inr (Or.inr (Or.inl h))
      · exact Or.inr (Or.inr (Or.inr ⟨e2, m2, h⟩))

theorem beq_zero_zero (a b : Bool) : F32.beq (F32.zero a) (F32.zero b) = true := by
  simp [F32.beq, finInt]

theorem mul_pzero_beq (y : F32) (hnan : y.isNan = false) (hinf : y.isInf = false) :
    F32.beq (f32Mul (F32.zero false) y) (F32.zero false) = true := by
  cases y with
  | nan => simp [F32.isNan] at hnan
  | inf s => simp [F32.isInf] at hinf
  | zero s => exact beq_zero_zero _ _
  | num s e m => exact beq_zero_zero _ _

theorem discharge_factor (X : F32)
    (hX : X = F32.zero false ∨ X = F32.zero true ∨ X = F32.inf true ∨
      ∃ e m, X = F32.num true e m) :
    goMax (F32.zero false) (goMin X f32One) = F32.zero false := by
  rcases hX with h | h | h | ⟨e, m, h⟩
  · subst h; decide
  · subst h; decide
  · subst h; decide
  · subst h
    have hlt1 : F32.lt (F32.num true e m) f32One = true := by
      simp only [F32.lt, F32.fexp, finInt, f32One, decide_eq_true_eq]
      norm_num
      have hp1 : (0 : Int) ≤ (m : Int) * 2 ^ ((e - min e (-23)).toNat) := by positivity
      have hp2 : (0 : Int) < 8388608 * 2 ^ ((-23 - min e (-23)).toNat) := by positivity
      omega
    have hmin : goMin (F32.num true e m) f32One = F32.num true e m := by
      unfold goMin
      rw [show ((F32.num true e m).isNan || f32One.isNan) = false from rfl, hlt1]
      simp
    rw [hmin]
    unfold goMax
    rw [show ((F32.zero false).isNan || (F32.num true e m).isNan) = false from rfl]
    have hlt2 : F32.lt (F32.zero false) (F32.num true e m) = false := by
      simp only [F32.lt, F32.fexp, finInt, decide_eq_false_iff_not, not_lt]
      norm_num
    rw [hlt2]
    simp only [Bool.false_eq_true, if_false]
    split_ifs <;> rfl

theorem findL_eq (a b : Nat) (ha : 0 < a) (hb : 0 < b) (k : Int)
    (h1 : (2 : ℚ) ^ k ≤ (a : ℚ) / (b : ℚ))
    (h2 : (a : ℚ) / (b : ℚ) < (2 : ℚ) ^ (k + 1)) : findL a b = k := by
  obtain ⟨hf1, hf2⟩ := findL_correct a b ha hb
  by_contra h
  rcases lt_or_gt_of_ne h with hlt | hgt
  · have := zpow_le_zpow_right₀ (one_le_two (α := ℚ))
      (by omega : findL a b + 1 ≤ k)
    linarith
  · have := zpow_le_zpow_right₀ (one_le_two (α := ℚ))
      (by omega : k + 1 ≤ findL a b)
    linarith

theorem roundQ_exact (B c : Nat) (hB : 0 < B) : roundQ (B * c) B = c := by
  unfold roundQ
  rw [Nat.mul_mod_right]
  have h1 : ¬ (B < 2 * 0) := by omega
  have h2 : 2 * 0 < B := by omega
  rw [if_neg h1, if_pos h2, Nat.mul_div_cancel_left c hB]

theorem roundFin_exact (s : Bool) (e0 : Int) (m0 : Nat) (he2 : e0 ≤ 104)
    (hm24 : m0 < 2 ^ 24) (hm0 : 0 < m0) : roundFin s e0 m0 = F32.num s e0 m0 := by
  have h24 : (2 ^ 24 ≤ m0) = False := eq_false (by omega)
  simp only [roundFin, h24, if_false]
  rw [if_neg (by omega : ¬ m0 = 0), if_neg (by omega : ¬ 104 < e0)]

theorem roundRat_exact (s : Bool) (a b : Nat) (hb : 0 < b) (e0 : Int) (m0 : Nat)
    (he1 : -149 ≤ e0) (he2 : e0 ≤ 104) (hm24 : m0 < 2 ^ 24) (hm0 : 0 < m0)
    (hnorm : 2 ^ 23 ≤ m0 ∨ e0 = -149)
    (hval : (a : ℚ) / (b : ℚ) = (m0 : ℚ) * (2 : ℚ) ^ e0) :
    roundRat s a b = F32.num s e0 m0 := by
  have hb' : (0 : ℚ) < (b : ℚ) := by exact_mod_cast hb
  have hm0' : (0 : ℚ) < (m0 : ℚ) := by exact_mod_cast hm0
  have ha : 0 < a := by
    by_contra h
    have h0 : a = 0 := by omega
    rw [h0] at hval
    norm_num at hval
    rcases hval with h | h
    · omega
    · exact absurd h (by positivity)
  have hsc : scaleExp a b = e0 := by
    rcases hnorm with hn | hn
    · have hkey : findL a b = e0 + 23 := by
        apply findL_eq a b ha hb
        · rw [hval]
          have hsplit : (2 : ℚ) ^ (e0 + 23) = (2 : ℚ) ^ (23 : Int) * (2 : ℚ) ^ e0 := by
            rw [← zpow_add₀ (two_ne_zero)]
            congr 1
            ring
          have hlo : (2 : ℚ) ^ (23 : Int) ≤ (m0 : ℚ) := by
            have h2 : ((2 ^ 23 : Nat) : ℚ) ≤ (m0 : ℚ) := by exact_mod_cast hn
            have h3 : (2 : ℚ) ^ (23 : Int) = ((2 ^ 23 : Nat) : ℚ) := by norm_num
            rw [h3]
            exact h2
          rw [hsplit]
          exact mul_le_mul_of_nonneg_right hlo (le_of_lt (by positivity))
        · rw [hval]
          have hsplit : (2 : ℚ) ^ (e0 + 23 + 1) =
              (2 : ℚ) ^ (24 : Int) * (2 : ℚ) ^ e0 := by
            rw [← zpow_add₀ (two_ne_zero)]
            congr 1
            ring
          have hhi : (m0 : ℚ) < (2 : ℚ) ^ (24 : Int) := by
            have h2 : (m0 : ℚ) < ((2 ^ 24 : Nat) : ℚ) := by exact_mod_cast hm24
            have h3 : (2 : ℚ) ^ (24 : Int) = ((2 ^ 24 : Nat) : ℚ) := by norm_num
            rw [h3]
            exact h2
          rw [hsplit]
          exact mul_lt_mul_of_pos_right hhi (by positivity)
      unfold scaleExp
      rw [hkey]
      have he : e0 + 23 - 23 = e0 := by ring
      rw [he]
      exact max_eq_left (by omega)
    · subst hn
      obtain ⟨hl1, hl2⟩ := natLog2_bounds m0 hm0
      have hl3 : natLog2 m0 ≤ 23 := by
        by_contra hcon
        have : 2 ^ 24 ≤ 2 ^ natLog2 m0 := Nat.pow_le_pow_right (by omega) (by omega)
        omega
      have hkey : findL a b = (natLog2 m0 : Int) - 149 := by
        apply findL_eq a b ha hb
        · rw [hval]
          have hsplit : (2 : ℚ) ^ ((natLog2 m0 : Int) - 149) =
              (2 : ℚ) ^ ((natLog2 m0 : Nat) : Int) * (2 : ℚ) ^ (-149 : Int) := by
            rw [← zpow_add₀ (two_ne_zero)]
            congr 1
          have hlo : (2 : ℚ) ^ ((natLog2 m0 : Nat) : Int) ≤ (m0 : ℚ) := by
            rw [zpow_natCast]
            exact_mod_cast hl1
          rw [hsplit]
          exact mul_le_mul_of_nonneg_right hlo (le_of_lt (by positivity))
        · rw [hval]
          have hsplit : (2 : ℚ) ^ ((natLog2 m0 : Int) - 149 + 1) =
              (2 : ℚ) ^ (((natLog2 m0 + 1 : Nat)) : Int) * (2 : ℚ) ^ (-149 : Int) := by
            rw [← zpow_add₀ (two_ne_zero)]
            congr 1
            push_cast
            ring
          have hhi : (m0 : ℚ) < (2 : ℚ) ^ (((natLog2 m0 + 1 : Nat)) : Int) := by
            rw [zpow_natCast]
            exact_mod_cast hl2
          rw [hsplit]
          exact mul_lt_mul_of_pos_right hhi (by positivity)
      unfold scaleExp
      rw [hkey]
      exact max_eq_right (by omega)
  have hA : a * 2 ^ ((-(scaleExp a b)).toNat) = (b * 2 ^ (scaleExp a b).toNat) * m0 := by
    rw [hsc]
    have hq : (a : ℚ) = (m0 : ℚ) * (2 : ℚ) ^ e0 * (b : ℚ) := by
      rw [← hval]
      field_simp
    have hzz : (2 : ℚ) ^ e0 * ((2 : ℚ) ^ ((-e0).toNat)) = (2 : ℚ) ^ (e0.toNat) := by
      rw [show ((2 : ℚ) ^ ((-e0).toNat)) = (2 : ℚ) ^ (((-e0).toNat : Int)) from
          (zpow_natCast 2 (-e0).toNat).symm,
        show ((2 : ℚ) ^ (e0.toNat)) = (2 : ℚ) ^ ((e0.toNat : Int)) from
          (zpow_natCast 2 e0.toNat).symm,
        ← zpow_add₀ (two_ne_zero)]
      congr 1
      omega
    have hcast : ((a * 2 ^ ((-e0).toNat) : Nat) : ℚ) =
        (((b * 2 ^ e0.toNat) * m0 : Nat) : ℚ) := by
      push_cast
      rw [hq]
      have hstep : (m0 : ℚ) * (2 : ℚ) ^ e0 * (b : ℚ) * ((2 : ℚ) ^ ((-e0).toNat)) =
          (b : ℚ) * ((2 : ℚ) ^ e0 * ((2 : ℚ) ^ ((-e0).toNat))) * (m0 : ℚ) := by
        ring
      rw [hstep, hzz]
    exact_mod_cast hcast
  unfold roundRat
  rw [if_neg (by omega : ¬ a = 0), hA, roundQ_exact _ _ (by positivity), hsc]
  exact roundFin_exact s e0 m0 he2 hm24 hm0

theorem f32Mul_one (x : F32) (hwf : x.WF = true) : f32Mul f32One x = x := by
  cases x with
  | nan => rfl
  | inf s => cases s <;> rfl
  | zero s => cases s <;> rfl
  | num s e m =>
    simp only [F32.WF, Bool.and_eq_true, decide_eq_true_eq, Bool.or_eq_true] at hwf
    obtain ⟨⟨⟨he1, he2⟩, hm24⟩, hmlo⟩ := hwf
    have hm0 : 0 < m := by rcases hmlo with h | h <;> omega
    have hnorm : 2 ^ 23 ≤ m ∨ e = -149 := by
      rcases hmlo with h | h
      · exact Or.inl h
      · exact Or.inr h.1
    have hmul : f32Mul f32One (F32.num s e m) =
        roundDyadic ((false : Bool) != s) (8388608 * m) (-23 + e) := rfl
    rw [hmul]
    have hsign : ((false : Bool) != s) = s := by cases s <;> rfl
    rw [hsign]
    unfold roundDyadic
    split_ifs with hcase
    · have hvq : ((8388608 * m * 2 ^ ((-23 + e).toNat) : Nat) : ℚ) / ((1 : Nat) : ℚ) =
          (m : ℚ) * (2 : ℚ) ^ e := by
        push_cast
        rw [div_one]
        have h1 : ((2 : ℚ) ^ ((-23 + e).toNat)) = (2 : ℚ) ^ ((-23 + e : Int)) := by
          rw [← zpow_natCast]
          congr 1
          omega
        have h2 : (8388608 : ℚ) = (2 : ℚ) ^ (23 : Int) := by norm_num
        rw [h1, h2]
        rw [show (2 : ℚ) ^ (23 : Int) * (m : ℚ) * (2 : ℚ) ^ ((-23 + e : Int)) =
            (m : ℚ) * ((2 : ℚ) ^ (23 : Int) * (2 : ℚ) ^ ((-23 + e : Int))) by ring]
        rw [← zpow_add₀ (two_ne_zero)]
        congr 1
        ring
      exact roundRat_exact s _ _ (by omega) e m he1 he2 hm24 hm0 hnorm hvq
    · have hvq : ((8388608 * m : Nat) : ℚ) / ((2 ^ ((-(-23 + e)).toNat) : Nat) : ℚ) =
          (m : ℚ) * (2 : ℚ) ^ e := by
        rw [div_eq_iff (by positivity)]
        push_cast
        have h1 : ((2 : ℚ) ^ ((-(-23 + e)).toNat)) = (2 : ℚ) ^ ((23 - e : Int)) := by
          rw [← zpow_natCast]
          congr 1
          omega
        have h2 : (8388608 : ℚ) = (2 : ℚ) ^ (23 : Int) := by norm_num
        rw [h1, h2]
        rw [show (m : ℚ) * (2 : ℚ) ^ e * (2 : ℚ) ^ ((23 - e : Int)) =
            (m : ℚ) * ((2 : ℚ) ^ e * (2 : ℚ) ^ ((23 - e : Int))) by ring]
        rw [← zpow_add₀ (two_ne_zero)]
        rw [show (e + (23 - e) : Int) = (23 : Int) by ring]
        ring
      exact roundRat_exact s _ _ (by positivity) e m he1 he2 hm24 hm0 hnorm hvq

/-- C6: for both the anti-windup and tracking controllers,
`DischargeIntegral(dt)` zeroes `ControlErrorIntegrand`, multiplies
`ControlErrorIntegral` by `max(0, min(1 - seconds(dt)/IntegralDischargeTimeConstant, 1))`
(linear scaling), and leaves every other state field unchanged; with a
positive finite time constant and a finite non-NaN integral, `dt` at or above
the time constant drives the integral to exactly zero, and `dt = 0` leaves it
unchanged. -/
theorem spec_c6_discharge_integral
    (cfg : AntiWindupControllerConfig) (s : AntiWindupControllerState)
    (cfgT : TrackingControllerConfig) (sT : TrackingControllerState) (d dT : Int) :
    ((AntiWindupController.DischargeIntegral cfg s d).ControlErrorIntegrand =
        F32.zero false ∧
      (AntiWindupController.DischargeIntegral cfg s d).ControlErrorIntegral =
        f32Mul (goMax (F32.zero false)
          (goMin (f32Sub f32One
            (f32Div (seconds d) cfg.IntegralDischargeTimeConstant)) f32One))
          s.ControlErrorIntegral ∧
      (AntiWindupController.DischargeIntegral cfg s d).ControlError =
        s.ControlError ∧
      (AntiWindupController.DischargeIntegral cfg s d).ControlErrorDerivative =
        s.ControlErrorDerivative ∧
      (AntiWindupController.DischargeIntegral cfg s d).ControlSignal =
        s.ControlSignal ∧
      (AntiWindupController.DischargeIntegral cfg s d).UnsaturatedControlSignal =
        s.UnsaturatedControlSignal ∧
      (∀ et mt, cfg.IntegralDischargeTimeConstant = F32.num false et mt → 0 < mt →
        s.ControlErrorIntegral.isNan = false → s.ControlErrorIntegral.isInf = false →
        F32.le cfg.IntegralDischargeTimeConstant (seconds d) = true →
        F32.beq (AntiWindupController.DischargeIntegral cfg s d).ControlErrorIntegral
          (F32.zero false) = true) ∧
      (∀ et mt, cfg.IntegralDischargeTimeConstant = F32.num false et mt → d = 0 →
        s.ControlErrorIntegral.WF = true →
        (AntiWindupController.DischargeIntegral cfg s d).ControlErrorIntegral =
          s.ControlErrorIntegral)) ∧
    ((TrackingController.DischargeIntegral cfgT sT dT).ControlErrorIntegrand =
        F32.zero false ∧
      (TrackingController.DischargeIntegral cfgT sT dT).ControlErrorIntegral =
        f32Mul (goMax (F32.zero false)
          (goMin (f32Sub f32One
            (f32Div (seconds dT) cfgT.IntegralDischargeTimeConstant)) f32One))
          sT.ControlErrorIntegral ∧
      (TrackingController.DischargeIntegral cfgT sT dT).ControlError =
        sT.ControlError ∧
      (TrackingController.DischargeIntegral cfgT sT dT).ControlErrorDerivative =
        sT.ControlErrorDerivative ∧
      (TrackingController.DischargeIntegral cfgT sT dT).ControlSignal =
        sT.ControlSignal ∧
      (TrackingController.DischargeIntegral cfgT sT dT).UnsaturatedControlSignal =
        sT.UnsaturatedControlSignal ∧
      (∀ et mt, cfgT.IntegralDischargeTimeConstant = F32.num false et mt → 0 < mt →
        sT.ControlErrorIntegral.isNan = false →
        sT.ControlErrorIntegral.isInf = false →
        F32.le cfgT.IntegralDischargeTimeConstant (seconds dT) = true →
        F32.beq (TrackingController.DischargeIntegral cfgT sT dT).ControlErrorIntegral
          (F32.zero false) = true) ∧
      (∀ et mt, cfgT.IntegralDischargeTimeConstant = F32.num false et mt → dT = 0 →
        sT.ControlErrorIntegral.WF = true →
        (TrackingController.DischargeIntegral cfgT sT dT).ControlErrorIntegral =
          sT.ControlErrorIntegral)) := by
  have hsec0 : seconds 0 = F32.zero false := by decide
  have hminone : goMin f32One f32One = f32One := by decide
  have hmaxone : goMax (F32.zero false) f32One = f32One := by decide
  refine ⟨⟨rfl, rfl, rfl, rfl, rfl, rfl, ?_, ?_⟩, ⟨rfl, rfl, rfl, rfl, rfl, rfl, ?_, ?_⟩⟩
  · intro et mt hT hmt hnn hni hle
    rw [hT] at hle
    have hgo := f32Div_ge_one (seconds d) et mt hmt hle
    have hsh := one_sub_nonpos _ hgo.1 hgo.2
    have hfac := discharge_factor _ hsh
    show F32.beq (f32Mul (goMax (F32.zero false)
      (goMin (f32Sub f32One
        (f32Div (seconds d) cfg.IntegralDischargeTimeConstant)) f32One))
      s.ControlErrorIntegral) (F32.zero false) = true
    rw [hT, hfac]
    exact mul_pzero_beq _ hnn hni
  · intro et mt hT hd hwf
    subst hd
    show f32Mul (goMax (F32.zero false)
      (goMin (f32Sub f32One
        (f32Div (seconds 0) cfg.IntegralDischargeTimeConstant)) f32One))
      s.ControlErrorIntegral = s.ControlErrorIntegral
    rw [hT, hsec0]
    rw [show f32Div (F32.zero false) (F32.num false et mt) = F32.zero false from rfl]
    rw [show f32Sub f32One (F32.zero false) = f32One from rfl]
    rw [hminone, hmaxone]
    exact f32Mul_one _ hwf
  · intro et mt hT hmt hnn hni hle
    rw [hT] at hle
    have hgo := f32Div_ge_one (seconds dT) et mt hmt hle
    have hsh := one_sub_nonpos _ hgo.1 hgo.2
    have hfac := discharge_factor _ hsh
    show F32.beq (f32Mul (goMax (F32.zero false)
      (goMin (f32Sub f32One
        (f32Div (seconds dT) cfgT.IntegralDischargeTimeConstant)) f32One))
      sT.ControlErrorIntegral) (F32.zero false) = true
    rw [hT, hfac]
    exact mul_pzero_beq _ hnn hni
  · intro et mt hT hd hwf
    subst hd
    show f32Mul (goMax (F32.zero false)
      (goMin (f32Sub f32One
        (f32Div (seconds 0) cfgT.IntegralDischargeTimeConstant)) f32One))
      sT.ControlErrorIntegral = sT.ControlErrorIntegral
    rw [hT, hsec0]
    rw [show f32Div (F32.zero false) (F32.num false et mt) = F32.zero false from rfl]
    rw [show f32Sub f32One (F32.zero false) = f32One from rfl]
    rw [hminone, hmaxone]
    exact f32Mul_one _ hwf

/-- Witness for C6 at concrete inputs: time constant 1 s, integral 1;
discharging for 1 s zeroes the integral, discharging for 0 s keeps it. -/
theorem spec_c6_discharge_integral_witness :
    F32.le f32One (seconds 1000000000) = true ∧
    F32.beq ((AntiWindupController.DischargeIntegral
      ⟨F32.zero false, F32.zero false, F32.zero false, F32.zero false, f32One,
        1000000000, F32.zero false, F32.zero false⟩
      ⟨F32.zero false, F32.zero false, f32One, F32.zero false, F32.zero false,
        F32.zero false⟩ 1000000000).ControlErrorIntegral) (F32.zero false) = true ∧
    (AntiWindupController.DischargeIntegral
      ⟨F32.zero false, F32.zero false, F32.zero false, F32.zero false, f32One,
        1000000000, F32.zero false, F32.zero false⟩
      ⟨F32.zero false, F32.zero false, f32One, F32.zero false, F32.zero false,
        F32.zero false⟩ 0).ControlErrorIntegral = f32One := by
  refine ⟨by decide, ?_, ?_⟩
  · exact (spec_c6_discharge_integral
      ⟨F32.zero false, F32.zero false, F32.zero false, F32.zero false, f32One,
        1000000000, F32.zero false, F32.zero false⟩
      ⟨F32.zero false, F32.zero false, f32One, F32.zero false, F32.zero false,
        F32.zero false⟩
      ⟨F32.zero false, F32.zero false, F32.zero false, F32.zero false, f32One,
        1000000000, F32.zero false, F32.zero false⟩
      ⟨F32.zero false, F32.zero false, f32One, F32.zero false, F32.zero false,
        F32.zero false⟩
      1000000000 0).1.2.2.2.2.2.2.1 (-23) 8388608 rfl (by decide) (by decide)
      (by decide) (by decide)
  · exact (spec_c6_discharge_integral
      ⟨F32.zero false, F32.zero false, F32.zero false, F32.zero false, f32One,
        1000000000, F32.zero false, F32.zero false⟩
      ⟨F32.zero false, F32.zero false, f32One, F32.zero false, F32.zero false,
        F32.zero false⟩
      ⟨F32.zero false, F32.zero false, F32.zero false, F32.zero false, f32One,
        1000000000, F32.zero false, F32.zero false⟩
      ⟨F32.zero false, F32.zero false, f32One, F32.zero false, F32.zero false,
        F32.zero false⟩
      0 0).1.2.2.2.2.2.2.2 (-23) 8388608 rfl rfl (by decide)
